import Mathlib

/-!
# PawnPlus: tag operation tables

A shallow embedding of `plugins/src/modules/tag_ops.cpp`: the default
(`null_operations`) table, the integer and float tables, the dynamic override
table (`dynamic_operations`) with its lock, and the dispatcher
(`tag_info::get_ops`, `tag_info::get_control`) over the global `op_map`.

Conventions of the embedding.

* A `cell` is the 32-bit signed AMX word, kept as its integer value; results of
  `+`, `-`, `*` and unary `-` are reduced to 32-bit two's complement
  (`wrap32`), which is what the supported targets compute.  Integer `/` and `%`
  trap on a zero divisor and on `INT_MIN / -1`; a trap is the result `none`.
* A `std::unordered_map` is the finite partial function it denotes
  (`umap`): `find` is application, `m[k] = v` is `umap.assign`, and
  `insert` keeps an entry that is already there.
* A `tag_ptr` is an address; `tag_memory` gives the `tag_info` stored at an
  address.  `get_ops` follows `base` pointers, so it is defined with a bound on
  the number of calls (`none` when the bound is used up).
* A reference to a table owned by `op_map` is the key of its slot.
* A virtual call made inside a base-class method is a function argument of
  that method (`null_operations.equals_array`).
-/

namespace PawnPlus

/-! ## Cells -/

/-- The AMX `cell`: a 32-bit signed integer, kept as its value. -/
abbrev cell := Int

/-- Smallest value of a cell, `-2^31`. -/
def cell_min : Int := -2147483648

/-- Largest value of a cell, `2^31 - 1`. -/
def cell_max : Int := 2147483647

/-- The integers a 32-bit cell can hold. -/
def is_cell (x : Int) : Prop := cell_min ≤ x ∧ x ≤ cell_max

instance (x : Int) : Decidable (is_cell x) := by
  unfold is_cell; exact inferInstance

/-- Reduction of an integer to 32-bit two's complement. -/
def wrap32 (x : Int) : cell := (x + 2147483648) % 4294967296 - 2147483648

/-- The 32-bit pattern of a cell, as an unsigned number. -/
def cell_bits (c : cell) : Nat := (c % 4294967296).toNat

/-- The four bytes of a cell in memory (little-endian, as on the supported targets). -/
def cell_bytes (c : cell) : List Nat :=
  [cell_bits c % 256, cell_bits c / 256 % 256, cell_bits c / 65536 % 256,
    cell_bits c / 16777216 % 256]

/-- The bytes of an array of cells. -/
def array_bytes : List cell → List Nat
  | [] => []
  | c :: cs => cell_bytes c ++ array_bytes cs

/-- The C library `memcmp` on the first `n` bytes of two buffers: negative, zero or
positive as the first differing byte is smaller, absent or larger.  A buffer shorter
than `n` is outside the function's contract; the comparison stops there. -/
def memcmp : List Nat → List Nat → Nat → Int
  | x :: xs, y :: ys, n + 1 =>
    if x < y then -1 else if y < x then 1 else memcmp xs ys n
  | _, _, _ => 0

/-! ## Tags -/

/-- A `tag_ptr`: the address of a `tag_info`. -/
abbrev tag_ptr := Nat

/-- The fields of `tag_info` that `tag_ops.cpp` reads. -/
structure tag_info where
  uid : cell
  name : String
  base : Option tag_ptr
deriving DecidableEq, Repr

/-- The `tag_info` objects, by address. -/
abbrev tag_memory := tag_ptr → tag_info

/-- Modelled from the spec: the reserved ids of the twelve well-known tags
(`tags::tag_unknown` ... `tags::tag_task`), constants of `tags.h`, which is not among
the sources; their values are left open. -/
structure tags where
  tag_unknown : cell
  tag_cell : cell
  tag_bool : cell
  tag_char : cell
  tag_float : cell
  tag_string : cell
  tag_variant : cell
  tag_list : cell
  tag_map : cell
  tag_iter : cell
  tag_ref : cell
  tag_task : cell
deriving DecidableEq, Repr

/-- Modelled from the spec: the enumeration `op_type` of `tags.h` (not among the
sources), with the operation kinds that `tag_ops.cpp` names. -/
inductive op_type where
  | add | sub | mul | div | mod | neg | string | equals | del | free | copy | clone | hash
deriving DecidableEq, Repr

/-! ## Unordered maps -/

/-- A `std::unordered_map<K, V>`, as the finite partial function it denotes. -/
abbrev umap (K V : Type) := K → Option V

/-- The empty map. -/
def umap.empty {K V : Type} : umap K V := fun _ => none

/-- The statement `m[k] = v`: the entry of `k` is created or replaced. -/
def umap.assign {K V : Type} [DecidableEq K] (m : umap K V) (k : K) (v : V) : umap K V :=
  fun k' => if k' = k then some v else m k'

/-- The call `m.insert(std::make_pair(k, v))`: an entry already present is kept. -/
def umap.insert {K V : Type} [DecidableEq K] (m : umap K V) (k : K) (v : V) : umap K V :=
  match m k with
  | some _ => m
  | none => m.assign k v

/-! ## The default table: `null_operations` -/

/-- Method `null_operations::add`. -/
def null_operations.add (_tag : tag_info) (_a _b : cell) : cell := 0

/-- Method `null_operations::sub`. -/
def null_operations.sub (_tag : tag_info) (_a _b : cell) : cell := 0

/-- Method `null_operations::mul`. -/
def null_operations.mul (_tag : tag_info) (_a _b : cell) : cell := 0

/-- Method `null_operations::div`. -/
def null_operations.div (_tag : tag_info) (_a _b : cell) : cell := 0

/-- Method `null_operations::mod`. -/
def null_operations.mod (_tag : tag_info) (_a _b : cell) : cell := 0

/-- Method `null_operations::neg`. -/
def null_operations.neg (_tag : tag_info) (_a : cell) : cell := 0

/-- Method `null_operations::equals` on two cells. -/
def null_operations.equals (_tag : tag_info) (a b : cell) : Bool := a == b

/-- The loop of `null_operations::equals` on arrays, from index `i` with `k` indices
left: it returns `false` at the first index where the scalar `equals` fails.  The
scalar `equals` is a virtual call, so it is the one of the table the method is
invoked on. -/
def null_operations.equals_loop (equals : cell → cell → Bool) (a b : List cell) :
    Nat → Nat → Bool
  | 0, _ => true
  | k + 1, i =>
    if !equals (a.getD i 0) (b.getD i 0) then false
    else null_operations.equals_loop equals a b k (i + 1)

/-- Method `null_operations::equals` on two arrays of `size` cells; `equals` is the
scalar method of the dynamic type. -/
def null_operations.equals_array (equals : cell → cell → Bool) (a b : List cell)
    (size : Nat) : Bool :=
  null_operations.equals_loop equals a b size 0

/-- Method `null_operations::del`. -/
def null_operations.del (_tag : tag_info) (_arg : cell) : Bool := false

/-- Method `null_operations::free`; the `del` it calls is virtual. -/
def null_operations.free (del : cell → Bool) (arg : cell) : Bool := del arg

/-- Method `null_operations::copy`. -/
def null_operations.copy (_tag : tag_info) (arg : cell) : cell := arg

/-- Method `null_operations::clone`; the `copy` it calls is virtual. -/
def null_operations.clone (copy : cell → cell) (arg : cell) : cell := copy arg

/-- Method `null_operations::hash`; `std_hash` is `std::hash<cell>`, which the
standard library of the build defines. -/
def null_operations.hash (std_hash : cell → Nat) (_tag : tag_info) (arg : cell) : Nat :=
  std_hash arg

/-! ## The integer table: `cell_operations` -/

/-- Method `cell_operations::add`. -/
def cell_operations.add (_tag : tag_info) (a b : cell) : cell := wrap32 (a + b)

/-- Method `cell_operations::sub`. -/
def cell_operations.sub (_tag : tag_info) (a b : cell) : cell := wrap32 (a - b)

/-- Method `cell_operations::mul`. -/
def cell_operations.mul (_tag : tag_info) (a b : cell) : cell := wrap32 (a * b)

/-- Method `cell_operations::div`: `a / b` truncates toward zero; there is no guard,
so a zero divisor and `INT_MIN / -1` trap (`none`). -/
def cell_operations.div (_tag : tag_info) (a b : cell) : Option cell :=
  if b = 0 then none
  else if a = cell_min ∧ b = -1 then none
  else some (Int.tdiv a b)

/-- Method `cell_operations::mod`: `a % b` is the remainder of the truncating
division and traps where the division does. -/
def cell_operations.mod (_tag : tag_info) (a b : cell) : Option cell :=
  if b = 0 then none
  else if a = cell_min ∧ b = -1 then none
  else some (Int.tmod a b)

/-- Method `cell_operations::neg`. -/
def cell_operations.neg (_tag : tag_info) (a : cell) : cell := wrap32 (-a)

/-- Method `cell_operations::equals` on two cells. -/
def cell_operations.equals (_tag : tag_info) (a b : cell) : Bool := a == b

/-- Method `cell_operations::equals` on two arrays:
`!std::memcmp(a, b, size * sizeof(cell))`. -/
def cell_operations.equals_array (_tag : tag_info) (a b : List cell) (size : Nat) : Bool :=
  memcmp (array_bytes a) (array_bytes b) (size * 4) == 0

/-! ## The float table: `float_operations` (equality only) -/

/-- Modelled from the spec: `amx_ctof` (a macro of `amx.h`, not among the sources)
reads the 32 bits of a cell as an IEEE-754 single; this tells whether that value
is a NaN (exponent all ones, fraction not zero). -/
def float_is_nan (c : cell) : Bool :=
  cell_bits c / 8388608 % 256 == 255 && cell_bits c % 8388608 != 0

/-- Modelled from the spec: whether `amx_ctof c` is `+0.0` or `-0.0` (all bits but
the sign are zero). -/
def float_is_zero (c : cell) : Bool := cell_bits c % 2147483648 == 0

/-- Modelled from the spec: the comparison `amx_ctof(a) == amx_ctof(b)` of two
IEEE-754 singles given by their bits: a NaN equals nothing, the two zeros are equal,
and any other two values are equal exactly when their bits are. -/
def float_eq (a b : cell) : Bool :=
  !float_is_nan a && !float_is_nan b &&
    (cell_bits a == cell_bits b || (float_is_zero a && float_is_zero b))

/-- Method `float_operations::equals` on two cells. -/
def float_operations.equals (_tag : tag_info) (a b : cell) : Bool := float_eq a b

/-- Method `float_operations::equals` on two arrays: it calls
`null_operations::equals(tag, a, b, size)`, whose scalar `equals` is the float one. -/
def float_operations.equals_array (tag : tag_info) (a b : List cell) (size : Nat) : Bool :=
  null_operations.equals_array (float_operations.equals tag) a b size

/-! ## The dynamic override table: `dynamic_operations` -/

/-- An `AMX*`: the address of a script instance. -/
abbrev amx_ptr := Nat

/-- Modelled from the spec: a stored extra callback parameter
(`objects/stored_param.h` is not among the sources), an opaque encoding of one
extra argument. -/
structure stored_param where
  code : Nat
deriving DecidableEq, Repr

/-- One push on the script stack: `amx_Push(amx, c)`, or `p.push(amx, type)` of a
stored parameter. -/
inductive pushed where
  | value (c : cell)
  | param (p : stored_param) (type : op_type)
deriving DecidableEq, Repr

/-- Modelled from the spec: the script-execution collaborator and the parameter
store, which are not among the sources.  `valid` tells whether the handle made by
`amx::load` still locks to a valid instance, `find_public` is `amx_FindPublic`
(the index when it returns `AMX_ERR_NONE`), `exec` is `amx_Exec` on the pushes made
so far, in push order (the result cell when it returns `AMX_ERR_NONE`), and
`create_param` is `stored_param::create` with the position `argi` it advances
(`none` when it throws `nullptr`). -/
structure script_host where
  valid : amx_ptr → Bool
  find_public : amx_ptr → String → Option Int
  exec : amx_ptr → Int → List pushed → Option cell
  create_param : amx_ptr → Char → List cell → Int → Int → Option (stored_param × Int)

/-- The class `dynamic_operations::op_handler`. -/
structure op_handler where
  _type : op_type
  _amx : amx_ptr
  _args : List stored_param
  _handler : String
deriving DecidableEq, Repr

/-- The loop of the `op_handler` constructor over the characters of `add_format`:
each stored parameter is appended to `_args`; a throw of `stored_param::create`
leaves the constructor (`none`). -/
def op_handler.create_args (host : script_host) (amx : amx_ptr) (args : List cell)
    (numargs : Int) : List Char → Int → List stored_param → Option (List stored_param)
  | [], _, acc => some acc
  | c :: cs, argi, acc =>
    match host.create_param amx c args argi numargs with
    | none => none
    | some (p, argi') => op_handler.create_args host amx args numargs cs argi' (acc ++ [p])

/-- The constructor `op_handler(type, amx, handler, add_format, args, numargs)`;
`add_format` is `none` for a null pointer. -/
def op_handler.new (host : script_host) (type : op_type) (amx : amx_ptr) (handler : String)
    (add_format : Option String) (args : List cell) (numargs : Int) : Option op_handler :=
  match add_format with
  | none => some ⟨type, amx, [], handler⟩
  | some fmt =>
    match op_handler.create_args host amx args numargs fmt.toList (-1) [] with
    | none => none
    | some stored => some ⟨type, amx, stored, handler⟩

/-- Method `op_handler::invoke(tag, arg1, arg2)`. -/
def op_handler.invoke (host : script_host) (h : op_handler) (_tag : tag_info)
    (arg1 arg2 : cell) : cell :=
  if host.valid h._amx then
    match host.find_public h._amx h._handler with
    | some pub =>
      match host.exec h._amx pub
          ([pushed.value arg2, pushed.value arg1] ++
            h._args.reverse.map (fun p => pushed.param p h._type)) with
      | some ret => ret
      | none => 0
    | none => 0
  else 0

/-- Method `op_handler::invoke(tag, arg)`. -/
def op_handler.invoke_unary (host : script_host) (h : op_handler) (_tag : tag_info)
    (arg : cell) : cell :=
  if host.valid h._amx then
    match host.find_public h._amx h._handler with
    | some pub =>
      match host.exec h._amx pub
          ([pushed.value arg] ++ h._args.reverse.map (fun p => pushed.param p h._type)) with
      | some ret => ret
      | none => 0
    | none => 0
  else 0

/-- The data members of `dynamic_operations`: `tag_uid` of the `null_operations`
base, the `_locked` flag and the map `dyn_ops` of registered overrides. -/
structure dynamic_operations where
  tag_uid : cell
  _locked : Bool
  dyn_ops : umap op_type op_handler

/-- The constructor `dynamic_operations(tag_uid)`: unlocked, no override. -/
def dynamic_operations.new (tag_uid : cell) : dynamic_operations :=
  ⟨tag_uid, false, umap.empty⟩

/-- Method `dynamic_operations::op_bin`. -/
def dynamic_operations.op_bin (host : script_host) (self : dynamic_operations)
    (tag : tag_info) (op : op_type) (a b : cell) : cell :=
  match self.dyn_ops op with
  | some h => h.invoke host tag a b
  | none => 0

/-- Method `dynamic_operations::op_un`. -/
def dynamic_operations.op_un (host : script_host) (self : dynamic_operations)
    (tag : tag_info) (op : op_type) (a : cell) : cell :=
  match self.dyn_ops op with
  | some h => h.invoke_unary host tag a
  | none => 0

/-- Method `dynamic_operations::add`. -/
def dynamic_operations.add (host : script_host) (self : dynamic_operations)
    (tag : tag_info) (a b : cell) : cell :=
  self.op_bin host tag op_type.add a b

/-- Method `dynamic_operations::sub`. -/
def dynamic_operations.sub (host : script_host) (self : dynamic_operations)
    (tag : tag_info) (a b : cell) : cell :=
  self.op_bin host tag op_type.sub a b

/-- Method `dynamic_operations::mul`. -/
def dynamic_operations.mul (host : script_host) (self : dynamic_operations)
    (tag : tag_info) (a b : cell) : cell :=
  self.op_bin host tag op_type.mul a b

/-- Method `dynamic_operations::div`. -/
def dynamic_operations.div (host : script_host) (self : dynamic_operations)
    (tag : tag_info) (a b : cell) : cell :=
  self.op_bin host tag op_type.div a b

/-- Method `dynamic_operations::mod`. -/
def dynamic_operations.mod (host : script_host) (self : dynamic_operations)
    (tag : tag_info) (a b : cell) : cell :=
  self.op_bin host tag op_type.mod a b

/-- Method `dynamic_operations::neg`. -/
def dynamic_operations.neg (host : script_host) (self : dynamic_operations)
    (tag : tag_info) (a : cell) : cell :=
  self.op_un host tag op_type.neg a

/-- Method `dynamic_operations::equals` on two cells: the cell of `op_bin` converted
to `bool`. -/
def dynamic_operations.equals (host : script_host) (self : dynamic_operations)
    (tag : tag_info) (a b : cell) : Bool :=
  self.op_bin host tag op_type.equals a b != 0

/-- Method `equals` on two arrays of a `dynamic_operations` object: inherited from
`null_operations`, with the scalar `equals` of `dynamic_operations`. -/
def dynamic_operations.equals_array (host : script_host) (self : dynamic_operations)
    (tag : tag_info) (a b : List cell) (size : Nat) : Bool :=
  null_operations.equals_array (self.equals host tag) a b size

/-- Method `dynamic_operations::del`: the cell of `op_un` converted to `bool`. -/
def dynamic_operations.del (host : script_host) (self : dynamic_operations)
    (tag : tag_info) (arg : cell) : Bool :=
  self.op_un host tag op_type.del arg != 0

/-- Method `dynamic_operations::free`: the cell of `op_un` converted to `bool`. -/
def dynamic_operations.free (host : script_host) (self : dynamic_operations)
    (tag : tag_info) (arg : cell) : Bool :=
  self.op_un host tag op_type.free arg != 0

/-- Method `dynamic_operations::copy`. -/
def dynamic_operations.copy (host : script_host) (self : dynamic_operations)
    (tag : tag_info) (arg : cell) : cell :=
  self.op_un host tag op_type.copy arg

/-- Method `dynamic_operations::clone`. -/
def dynamic_operations.clone (host : script_host) (self : dynamic_operations)
    (tag : tag_info) (arg : cell) : cell :=
  self.op_un host tag op_type.clone arg

/-- Method `dynamic_operations::hash`: the cell of `op_un` converted to `size_t`,
a word of `size_bits` bits. -/
def dynamic_operations.hash (host : script_host) (size_bits : Nat)
    (self : dynamic_operations) (tag : tag_info) (arg : cell) : Nat :=
  (self.op_un host tag op_type.hash arg % (2 : Int) ^ size_bits).toNat

/-- Method `dynamic_operations::set_op`: the answer and the object afterwards.  In
`dyn_ops[type] = op_handler(...)` the right operand is evaluated first (the order of
C++17), so a throw of `stored_param::create` is answered `false` with the map as it
was. -/
def dynamic_operations.set_op (host : script_host) (self : dynamic_operations)
    (type : op_type) (amx : amx_ptr) (handler : String) (add_format : Option String)
    (args : List cell) (numargs : Int) : Bool × dynamic_operations :=
  if self._locked then (false, self)
  else
    match op_handler.new host type amx handler add_format args numargs with
    | none => (false, self)
    | some h => (true, { self with dyn_ops := self.dyn_ops.assign type h })

/-- Method `dynamic_operations::lock`: the answer and the object afterwards. -/
def dynamic_operations.lock (self : dynamic_operations) : Bool × dynamic_operations :=
  if self._locked then (false, self)
  else (true, { self with _locked := true })

/-- A call made through the `tag_control` interface of a dynamic table. -/
inductive control_call where
  | set_op (type : op_type) (amx : amx_ptr) (handler : String) (add_format : Option String)
      (args : List cell) (numargs : Int)
  | lock

/-- One `tag_control` call on a table: the answer and the table afterwards. -/
def control_call.apply (host : script_host) (self : dynamic_operations) :
    control_call → Bool × dynamic_operations
  | control_call.set_op type amx handler add_format args numargs =>
    self.set_op host type amx handler add_format args numargs
  | control_call.lock => self.lock

/-- A sequence of `tag_control` calls on a table: the answers in call order and the
table at the end. -/
def control_call.run (host : script_host) :
    dynamic_operations → List control_call → List Bool × dynamic_operations
  | self, [] => ([], self)
  | self, c :: cs =>
    ((c.apply host self).1 :: (control_call.run host (c.apply host self).2 cs).1,
      (control_call.run host (c.apply host self).2 cs).2)

/-! ## The dispatcher: `op_map`, `get_ops`, `get_control` -/

/-- The concrete classes behind `tag_operations`, each with its data members. -/
inductive tag_operations where
  | null (tag_uid : cell)
  | cell (tag_uid : cell)
  | bool
  | char
  | float
  | string
  | variant
  | list
  | map
  | iter
  | ref
  | task
  | dynamic (d : dynamic_operations)

/-- Whether a `dynamic_cast<dynamic_operations*>` of the table succeeds. -/
def tag_operations.is_dynamic : tag_operations → Bool
  | tag_operations.dynamic _ => true
  | _ => false

/-- The type of the global `op_map`: tag id to owned table. -/
abbrev op_map_t := umap cell tag_operations

/-- The initial value of the global `op_map`: the twelve built-in tables, inserted in
the order of the source. -/
def op_map (ids : tags) : op_map_t :=
  let m : op_map_t := umap.empty
  let m := m.insert ids.tag_unknown (tag_operations.null ids.tag_unknown)
  let m := m.insert ids.tag_cell (tag_operations.cell ids.tag_cell)
  let m := m.insert ids.tag_bool tag_operations.bool
  let m := m.insert ids.tag_char tag_operations.char
  let m := m.insert ids.tag_float tag_operations.float
  let m := m.insert ids.tag_string tag_operations.string
  let m := m.insert ids.tag_variant tag_operations.variant
  let m := m.insert ids.tag_list tag_operations.list
  let m := m.insert ids.tag_map tag_operations.map
  let m := m.insert ids.tag_iter tag_operations.iter
  let m := m.insert ids.tag_ref tag_operations.ref
  let m := m.insert ids.tag_task tag_operations.task
  m

/-- Method `tag_info::get_ops` on the tag at address `this`, with at most `fuel` nested
calls: the key of the `op_map` slot whose table is returned (`none` when the bound is
used up).  The last branch is `*op_map[tags::tag_unknown]`, the slot of the unknown
tag. -/
def tag_info.get_ops (ids : tags) (mem : tag_memory) (m : op_map_t) :
    Nat → tag_ptr → Option cell
  | 0, _ => none
  | fuel + 1, this =>
    match m (mem this).uid with
    | some _ => some (mem this).uid
    | none =>
      match (mem this).base with
      | some base => tag_info.get_ops ids mem m fuel base
      | none => some ids.tag_unknown

/-- Method `tag_info::get_control`: the key of the slot of the returned control object
(`none` for a null pointer) and `op_map` afterwards. -/
def tag_info.get_control (m : op_map_t) (self : tag_info) : Option cell × op_map_t :=
  match m self.uid with
  | some t => (if t.is_dynamic then some self.uid else none, m)
  | none => (some self.uid, m.assign self.uid (tag_operations.dynamic (dynamic_operations.new self.uid)))

/-- A call of the dispatcher on the tag at an address. -/
inductive dispatch_call where
  | get_ops (tag : tag_ptr)
  | get_control (tag : tag_ptr)
deriving DecidableEq, Repr

/-- The `op_map` after one dispatcher call (`get_ops` only reads it). -/
def dispatch_call.apply (mem : tag_memory) (m : op_map_t) : dispatch_call → op_map_t
  | dispatch_call.get_ops _ => m
  | dispatch_call.get_control tag => (tag_info.get_control m (mem tag)).2

/-- The `op_map` after a sequence of dispatcher calls. -/
def dispatch_call.run (mem : tag_memory) : op_map_t → List dispatch_call → op_map_t
  | m, [] => m
  | m, c :: cs => dispatch_call.run mem (c.apply mem m) cs

/-- The tags `tag`, `tag.base`, `tag.base.base`, ... up to the one without a base:
`base_chain mem tag l` says that `l` is this list, so the chain of `tag` is finite
and free of cycles. -/
def base_chain (mem : tag_memory) : tag_ptr → List tag_ptr → Prop
  | _, [] => False
  | tag, [p] => p = tag ∧ (mem tag).base = none
  | tag, p :: q :: l => p = tag ∧ (mem tag).base = some q ∧ base_chain mem q (q :: l)

/-- The slot that the inheritance fallback selects on a chain: the id of the first tag
with a registered table, else the id of the unknown tag. -/
def first_registered (ids : tags) (mem : tag_memory) (m : op_map_t) : List tag_ptr → cell
  | [] => ids.tag_unknown
  | p :: l => if (m (mem p).uid).isSome then (mem p).uid else first_registered ids mem m l

/-! ## Rendering: `to_string` of the default, integer and bool tables -/

/-- A `cell_string`: a sequence of cells, one per character. -/
abbrev cell_string := List cell

/-- The cell of a character. -/
def char_cell (c : Char) : cell := (c.toNat : Int)

/-- Modelled from the spec: `strings::convert` (`modules/strings.h` is not among the
sources), the text as a `cell_string`, one cell per character. -/
def strings.convert (s : String) : cell_string := s.toList.map char_cell

/-- The library function `std::to_string` on an `int`: the signed decimal text. -/
def std_to_string (v : cell) : String :=
  if v < 0 then "-" ++ Nat.repr v.natAbs else Nat.repr v.toNat

/-- Method `null_operations::append_string`: the decimal text of the cell is appended. -/
def null_operations.append_string (_tag : tag_info) (arg : cell) (str : cell_string) :
    cell_string :=
  str ++ strings.convert (std_to_string arg)

/-- The start of both `null_operations::to_string` methods: the name of the tag and a colon
when the tag is not the one of the table. -/
def null_operations.to_string_head (tag_uid : cell) (tag : tag_info) : cell_string :=
  if tag.uid ≠ tag_uid then ([] ++ strings.convert tag.name) ++ [char_cell ':'] else []

/-- Method `null_operations::to_string` on a cell; `append_string` is virtual, so it is the
one of the table the method is invoked on. -/
def null_operations.to_string (tag_uid : cell)
    (append_string : tag_info → cell → cell_string → cell_string)
    (tag : tag_info) (arg : cell) : cell_string :=
  append_string tag arg (null_operations.to_string_head tag_uid tag)

/-- The loop of `null_operations::to_string` on an array, from index `i` with `k` indices
left, with the flag `first` and the text so far. -/
def null_operations.to_string_loop
    (append_string : tag_info → cell → cell_string → cell_string)
    (tag : tag_info) (arg : List cell) : Nat → Nat → Bool → cell_string → cell_string
  | 0, _, _, str => str
  | k + 1, i, first, str =>
    null_operations.to_string_loop append_string tag arg k (i + 1) false
      (append_string tag (arg.getD i 0)
        (if first then str else str ++ [char_cell ',', char_cell ' ']))

/-- Method `null_operations::to_string` on an array of `size` cells. -/
def null_operations.to_string_array (tag_uid : cell)
    (append_string : tag_info → cell → cell_string → cell_string)
    (tag : tag_info) (arg : List cell) (size : Nat) : cell_string :=
  null_operations.to_string_loop append_string tag arg size 0 true
      (null_operations.to_string_head tag_uid tag ++ [char_cell '\x7b'])
    ++ [char_cell '\x7d']

/-- Method `to_string` on a cell of a `cell_operations` object with the given `tag_uid`:
inherited from `null_operations`, as is `append_string`. -/
def cell_operations.to_string (tag_uid : cell) (tag : tag_info) (arg : cell) : cell_string :=
  null_operations.to_string tag_uid null_operations.append_string tag arg

/-- Method `to_string` on an array of a `cell_operations` object with the given `tag_uid`. -/
def cell_operations.to_string_array (tag_uid : cell) (tag : tag_info) (arg : List cell)
    (size : Nat) : cell_string :=
  null_operations.to_string_array tag_uid null_operations.append_string tag arg size

/-- Method `bool_operations::append_string`; the `tag_uid` of the table is
`tags::tag_bool`. -/
def bool_operations.append_string (ids : tags) (tag : tag_info) (arg : cell)
    (str : cell_string) : cell_string :=
  if arg = 1 then str ++ strings.convert "true"
  else if arg = 0 then str ++ strings.convert "false"
  else
    (if tag.uid = ids.tag_bool then str ++ strings.convert "bool:" else str)
      ++ strings.convert (std_to_string arg)

/-- Method `to_string` on a cell of the `bool_operations` object: inherited from
`null_operations`, with the `append_string` of `bool_operations`. -/
def bool_operations.to_string (ids : tags) (tag : tag_info) (arg : cell) : cell_string :=
  null_operations.to_string ids.tag_bool (bool_operations.append_string ids) tag arg

/-- The decimal text of a cell, as a `cell_string`. -/
def decimal_text (v : cell) : cell_string := strings.convert (std_to_string v)

/-- The text `name:` of a tag, as a `cell_string`. -/
def name_colon (tag : tag_info) : cell_string := strings.convert tag.name ++ [char_cell ':']

/-- The texts joined with the separator `, ` between consecutive ones. -/
def comma_joined : List cell_string → cell_string
  | [] => []
  | [t] => t
  | t :: u :: ts => t ++ [char_cell ',', char_cell ' '] ++ comma_joined (u :: ts)

/-! ## Object pools -/

/-- Removal of the entry of a key. -/
def umap.erase {K V : Type} [DecidableEq K] (m : umap K V) (k : K) : umap K V :=
  fun k' => if k' = k then none else m k'

/-- Modelled from the spec: an object pool (`object_pool` of the pool headers, which are
not among the sources).  A handle is the address of the pooled object, as a cell: `objects`
gives the live objects by handle, and `next` is the address the next `add` takes. -/
structure object_pool (T : Type) where
  objects : umap Int T
  next : Int

/-- Modelled from the spec: the handles of live objects are not null and lie below `next`,
so `next` is free and stays so until it is taken. -/
def object_pool.wf {T : Type} (p : object_pool T) : Prop :=
  (0 : Int) < p.next ∧ ∀ h : Int, (p.objects h).isSome = true → 0 < h ∧ h < p.next

/-- Whether a handle is valid: it is the handle of a live object. -/
def object_pool.valid {T : Type} (p : object_pool T) (h : cell) : Bool :=
  (p.objects h).isSome

/-- Modelled from the spec: `get_by_id(id, ptr)`: the answer tells whether the handle is
valid; the pointer it sets is the handle itself, null exactly for the handle 0. -/
def object_pool.get_by_id {T : Type} (p : object_pool T) (id : cell) : Bool × cell :=
  (p.valid id, id)

/-- Modelled from the spec: `get_id(ptr)`, the handle of a pooled object. -/
def object_pool.get_id {T : Type} (_p : object_pool T) (ptr : cell) : cell := ptr

/-- Modelled from the spec: `add(value)`: the pointer to the new entry and the pool
afterwards. -/
def object_pool.add {T : Type} (p : object_pool T) (value : T) : cell × object_pool T :=
  (p.next, ⟨p.objects.assign p.next value, p.next + 1⟩)

/-- Modelled from the spec: `remove(ptr)`: whether an entry was removed, and the pool
afterwards. -/
def object_pool.remove {T : Type} (p : object_pool T) (ptr : cell) : Bool × object_pool T :=
  match p.objects ptr with
  | some _ => (true, ⟨p.objects.erase ptr, p.next⟩)
  | none => (false, p)

/-- Modelled from the spec: `clone(ptr)` of a live object: a new entry with the same value. -/
def object_pool.clone {T : Type} (p : object_pool T) (ptr : cell) (dflt : T) :
    cell × object_pool T :=
  p.add ((p.objects ptr).getD dflt)

/-- Modelled from the spec: the boxed value `dyn_object` (its header is not among the
sources): the tag and the cells it holds; it is empty when it holds no cell. -/
structure dyn_object where
  tag : tag_ptr
  cells : List cell
deriving DecidableEq, Repr

/-- Modelled from the spec: `dyn_object::empty`. -/
def dyn_object.empty (o : dyn_object) : Bool := o.cells.isEmpty

/-- The type `list_t`: a sequence of boxed values. -/
abbrev list_t := List dyn_object

/-- The type `map_t`: pairs of a boxed key and a boxed value. -/
abbrev map_t := List (dyn_object × dyn_object)

/-- Modelled from the spec: the cursor `dyn_iterator` (not among the sources), opaque. -/
structure dyn_iterator where
  code : Nat
deriving DecidableEq, Repr

/-- Modelled from the spec: a `tasks::task` (not among the sources), opaque. -/
structure task where
  code : Nat
deriving DecidableEq, Repr

/-- The pools that `tag_ops.cpp` works on: `strings::pool`, `variants::pool`, `list_pool`,
`map_pool`, `iter_pool` and the tasks behind `tasks::get_by_id` and `tasks::remove`. -/
structure pools where
  strings : object_pool cell_string
  variants : object_pool dyn_object
  list_pool : object_pool list_t
  map_pool : object_pool map_t
  iter_pool : object_pool dyn_iterator
  tasks : object_pool task

/-! ## The string table: `string_operations` -/

/-- Method `string_operations::add`: the result and the pools afterwards.  The pointers
`str1`, `str2` are the handles; a pointer is dereferenced only where its handle is
valid. -/
def string_operations.add (w : pools) (_tag : tag_info) (a b : cell) : cell × pools :=
  if (!(w.strings.get_by_id a).1 && (w.strings.get_by_id a).2 != 0)
      || (!(w.strings.get_by_id b).1 && (w.strings.get_by_id b).2 != 0) then (0, w)
  else if (w.strings.get_by_id a).2 = 0 ∧ (w.strings.get_by_id b).2 = 0 then
    (w.strings.get_id (w.strings.add []).1, { w with strings := (w.strings.add []).2 })
  else if (w.strings.get_by_id a).2 = 0 then
    (w.strings.get_id (w.strings.add ((w.strings.objects b).getD [])).1,
      { w with strings := (w.strings.add ((w.strings.objects b).getD [])).2 })
  else if (w.strings.get_by_id b).2 = 0 then
    (w.strings.get_id (w.strings.add ((w.strings.objects a).getD [])).1,
      { w with strings := (w.strings.add ((w.strings.objects a).getD [])).2 })
  else
    (w.strings.get_id (w.strings.add ((w.strings.objects a).getD [] ++ (w.strings.objects b).getD [])).1,
      { w with strings :=
          (w.strings.add ((w.strings.objects a).getD [] ++ (w.strings.objects b).getD [])).2 })

/-- Method `string_operations::mod`. -/
def string_operations.mod (w : pools) (tag : tag_info) (a b : cell) : cell × pools :=
  string_operations.add w tag a b

/-- Method `string_operations::equals`. -/
def string_operations.equals (w : pools) (_tag : tag_info) (a b : cell) : Bool :=
  if !(w.strings.get_by_id a).1 && (w.strings.get_by_id a).2 != 0 then false
  else if !(w.strings.get_by_id b).1 && (w.strings.get_by_id b).2 != 0 then false
  else if (w.strings.get_by_id a).2 = 0 ∧ (w.strings.get_by_id b).2 = 0 then true
  else if (w.strings.get_by_id a).2 = 0 then ((w.strings.objects b).getD []).length == 0
  else if (w.strings.get_by_id b).2 = 0 then ((w.strings.objects a).getD []).length == 0
  else (w.strings.objects a).getD [] == (w.strings.objects b).getD []

/-- Method `string_operations::del`. -/
def string_operations.del (w : pools) (_tag : tag_info) (arg : cell) : Bool × pools :=
  if (w.strings.get_by_id arg).1 then
    ((w.strings.remove (w.strings.get_by_id arg).2).1,
      { w with strings := (w.strings.remove (w.strings.get_by_id arg).2).2 })
  else (false, w)

/-- Method `string_operations::free`. -/
def string_operations.free (w : pools) (tag : tag_info) (arg : cell) : Bool × pools :=
  string_operations.del w tag arg

/-- Method `string_operations::copy`. -/
def string_operations.copy (w : pools) (_tag : tag_info) (arg : cell) : cell × pools :=
  if (w.strings.get_by_id arg).1 then
    (w.strings.get_id (w.strings.clone (w.strings.get_by_id arg).2 []).1,
      { w with strings := (w.strings.clone (w.strings.get_by_id arg).2 []).2 })
  else (0, w)

/-- Method `string_operations::clone`. -/
def string_operations.clone (w : pools) (tag : tag_info) (arg : cell) : cell × pools :=
  string_operations.copy w tag arg

/-- The content of the string behind a handle, the null handle read as the empty string. -/
def string_content (w : pools) (h : cell) : cell_string :=
  if h = 0 then [] else (w.strings.objects h).getD []

/-! ## The variant table: `variant_operations` -/

/-- Method `variant_operations::equals`; `dyn_eq` is `dyn_object::operator==`, which is
not among the sources.  A pointer is dereferenced only where its handle is valid. -/
def variant_operations.equals (dyn_eq : dyn_object → dyn_object → Bool) (w : pools)
    (_tag : tag_info) (a b : cell) : Bool :=
  if !(w.variants.get_by_id a).1 && (w.variants.get_by_id a).2 != 0 then false
  else if !(w.variants.get_by_id b).1 && (w.variants.get_by_id b).2 != 0 then false
  else if (w.variants.get_by_id a).2 = 0 ∨ ((w.variants.objects a).getD ⟨0, []⟩).empty = true then
    decide ((w.variants.get_by_id b).2 = 0 ∨ ((w.variants.objects b).getD ⟨0, []⟩).empty = true)
  else if (w.variants.get_by_id b).2 = 0 then false
  else dyn_eq ((w.variants.objects a).getD ⟨0, []⟩) ((w.variants.objects b).getD ⟨0, []⟩)

/-- Method `variant_operations::del`. -/
def variant_operations.del (w : pools) (_tag : tag_info) (arg : cell) : Bool × pools :=
  if (w.variants.get_by_id arg).1 then
    ((w.variants.remove (w.variants.get_by_id arg).2).1,
      { w with variants := (w.variants.remove (w.variants.get_by_id arg).2).2 })
  else (false, w)

/-- Method `variant_operations::free`; `obj_free` is `dyn_object::free` (`none` when it does
not return). -/
def variant_operations.free (obj_free : dyn_object → pools → Option pools) (w : pools)
    (_tag : tag_info) (arg : cell) : Option (Bool × pools) :=
  if (w.variants.get_by_id arg).1 then
    match obj_free ((w.variants.objects arg).getD ⟨0, []⟩) w with
    | none => none
    | some w1 => some ((w1.variants.remove arg).1,
        { w1 with variants := (w1.variants.remove arg).2 })
  else some (false, w)

/-- Method `variant_operations::copy`. -/
def variant_operations.copy (w : pools) (_tag : tag_info) (arg : cell) : cell × pools :=
  if (w.variants.get_by_id arg).1 then
    (w.variants.get_id (w.variants.clone (w.variants.get_by_id arg).2 ⟨0, []⟩).1,
      { w with variants := (w.variants.clone (w.variants.get_by_id arg).2 ⟨0, []⟩).2 })
  else (0, w)

/-- Method `variant_operations::clone`; `obj_clone` is `dyn_object::clone`, which is not
among the sources (`none` when it does not return). -/
def variant_operations.clone (obj_clone : dyn_object → pools → Option (dyn_object × pools))
    (w : pools) (_tag : tag_info) (arg : cell) : Option (cell × pools) :=
  if (w.variants.get_by_id arg).1 then
    match obj_clone ((w.variants.objects arg).getD ⟨0, []⟩) w with
    | none => none
    | some (o, w1) => some (w1.variants.get_id (w1.variants.add o).1,
        { w1 with variants := (w1.variants.add o).2 })
  else some (0, w)

/-! ## The list, map, iterator and task tables -/

/-- The loop `for(auto &obj : *l) obj.free();` over the elements of a list. -/
def list_operations.free_each (obj_free : dyn_object → pools → Option pools) :
    List dyn_object → pools → Option pools
  | [], w => some w
  | obj :: rest, w =>
    match obj_free obj w with
    | none => none
    | some w1 => list_operations.free_each obj_free rest w1

/-- Method `list_operations::del`. -/
def list_operations.del (w : pools) (_tag : tag_info) (arg : cell) : Bool × pools :=
  if (w.list_pool.get_by_id arg).1 then
    ((w.list_pool.remove (w.list_pool.get_by_id arg).2).1,
      { w with list_pool := (w.list_pool.remove (w.list_pool.get_by_id arg).2).2 })
  else (false, w)

/-- Method `list_operations::free`; `obj_free` is `dyn_object::free`. -/
def list_operations.free (obj_free : dyn_object → pools → Option pools) (w : pools)
    (_tag : tag_info) (arg : cell) : Option (Bool × pools) :=
  if (w.list_pool.get_by_id arg).1 then
    match list_operations.free_each obj_free ((w.list_pool.objects arg).getD []) w with
    | none => none
    | some w1 => some ((w1.list_pool.remove arg).1,
        { w1 with list_pool := (w1.list_pool.remove arg).2 })
  else some (false, w)

/-- Method `list_operations::copy`: a new empty list is added and assigned the elements. -/
def list_operations.copy (w : pools) (_tag : tag_info) (arg : cell) : cell × pools :=
  if (w.list_pool.get_by_id arg).1 then
    (w.list_pool.get_id (w.list_pool.add []).1,
      { w with list_pool :=
          ⟨(w.list_pool.add []).2.objects.assign (w.list_pool.add []).1
              (((w.list_pool.add []).2.objects arg).getD []),
            (w.list_pool.add []).2.next⟩ })
  else (0, w)

/-- The loop `for(auto &obj : *l) l2->push_back(obj.clone());` into the list at `l2`. -/
def list_operations.clone_each (obj_clone : dyn_object → pools → Option (dyn_object × pools))
    (l2 : cell) : List dyn_object → pools → Option pools
  | [], w => some w
  | obj :: rest, w =>
    match obj_clone obj w with
    | none => none
    | some (o, w1) =>
      list_operations.clone_each obj_clone l2 rest
        { w1 with list_pool :=
            ⟨w1.list_pool.objects.assign l2 ((w1.list_pool.objects l2).getD [] ++ [o]),
              w1.list_pool.next⟩ }

/-- Method `list_operations::clone`; `obj_clone` is `dyn_object::clone`. -/
def list_operations.clone (obj_clone : dyn_object → pools → Option (dyn_object × pools))
    (w : pools) (_tag : tag_info) (arg : cell) : Option (cell × pools) :=
  if (w.list_pool.get_by_id arg).1 then
    match list_operations.clone_each obj_clone (w.list_pool.add []).1
        ((w.list_pool.objects arg).getD []) { w with list_pool := (w.list_pool.add []).2 } with
    | none => none
    | some w1 => some (w1.list_pool.get_id (w.list_pool.add []).1, w1)
  else some (0, w)

/-- The loop `for(auto &pair : *m) { pair.first.free(); pair.second.free(); }`. -/
def map_operations.free_each (obj_free : dyn_object → pools → Option pools) :
    List (dyn_object × dyn_object) → pools → Option pools
  | [], w => some w
  | pair :: rest, w =>
    match obj_free pair.1 w with
    | none => none
    | some w1 =>
      match obj_free pair.2 w1 with
      | none => none
      | some w2 => map_operations.free_each obj_free rest w2

/-- Method `map_operations::del`. -/
def map_operations.del (w : pools) (_tag : tag_info) (arg : cell) : Bool × pools :=
  if (w.map_pool.get_by_id arg).1 then
    ((w.map_pool.remove (w.map_pool.get_by_id arg).2).1,
      { w with map_pool := (w.map_pool.remove (w.map_pool.get_by_id arg).2).2 })
  else (false, w)

/-- Method `map_operations::free`; `obj_free` is `dyn_object::free`. -/
def map_operations.free (obj_free : dyn_object → pools → Option pools) (w : pools)
    (_tag : tag_info) (arg : cell) : Option (Bool × pools) :=
  if (w.map_pool.get_by_id arg).1 then
    match map_operations.free_each obj_free ((w.map_pool.objects arg).getD []) w with
    | none => none
    | some w1 => some ((w1.map_pool.remove arg).1,
        { w1 with map_pool := (w1.map_pool.remove arg).2 })
  else some (false, w)

/-- Method `map_operations::copy`: a new empty map is added and assigned the pairs. -/
def map_operations.copy (w : pools) (_tag : tag_info) (arg : cell) : cell × pools :=
  if (w.map_pool.get_by_id arg).1 then
    (w.map_pool.get_id (w.map_pool.add []).1,
      { w with map_pool :=
          ⟨(w.map_pool.add []).2.objects.assign (w.map_pool.add []).1
              (((w.map_pool.add []).2.objects arg).getD []),
            (w.map_pool.add []).2.next⟩ })
  else (0, w)

/-- The loop `for(auto &pair : *m) m2->insert(...)` of the clones of key and value into the
map at `m2`; an insertion under a key that is already there is left to the map. -/
def map_operations.clone_each (obj_clone : dyn_object → pools → Option (dyn_object × pools))
    (m2 : cell) : List (dyn_object × dyn_object) → pools → Option pools
  | [], w => some w
  | pair :: rest, w =>
    match obj_clone pair.1 w with
    | none => none
    | some (k, w1) =>
      match obj_clone pair.2 w1 with
      | none => none
      | some (v, w2) =>
        map_operations.clone_each obj_clone m2 rest
          { w2 with map_pool :=
              ⟨w2.map_pool.objects.assign m2 ((w2.map_pool.objects m2).getD [] ++ [(k, v)]),
                w2.map_pool.next⟩ }

/-- Method `map_operations::clone`; `obj_clone` is `dyn_object::clone`. -/
def map_operations.clone (obj_clone : dyn_object → pools → Option (dyn_object × pools))
    (w : pools) (_tag : tag_info) (arg : cell) : Option (cell × pools) :=
  if (w.map_pool.get_by_id arg).1 then
    match map_operations.clone_each obj_clone (w.map_pool.add []).1
        ((w.map_pool.objects arg).getD []) { w with map_pool := (w.map_pool.add []).2 } with
    | none => none
    | some w1 => some (w1.map_pool.get_id (w.map_pool.add []).1, w1)
  else some (0, w)

/-- Method `iter_operations::del`. -/
def iter_operations.del (w : pools) (_tag : tag_info) (arg : cell) : Bool × pools :=
  if (w.iter_pool.get_by_id arg).1 then
    ((w.iter_pool.remove (w.iter_pool.get_by_id arg).2).1,
      { w with iter_pool := (w.iter_pool.remove (w.iter_pool.get_by_id arg).2).2 })
  else (false, w)

/-- Method `iter_operations::free`. -/
def iter_operations.free (w : pools) (tag : tag_info) (arg : cell) : Bool × pools :=
  iter_operations.del w tag arg

/-- Method `iter_operations::copy`. -/
def iter_operations.copy (w : pools) (_tag : tag_info) (arg : cell) : cell × pools :=
  if (w.iter_pool.get_by_id arg).1 then
    (w.iter_pool.get_id (w.iter_pool.clone (w.iter_pool.get_by_id arg).2 ⟨0⟩).1,
      { w with iter_pool := (w.iter_pool.clone (w.iter_pool.get_by_id arg).2 ⟨0⟩).2 })
  else (0, w)

/-- Method `iter_operations::clone`. -/
def iter_operations.clone (w : pools) (tag : tag_info) (arg : cell) : cell × pools :=
  iter_operations.copy w tag arg

/-- Method `task_operations::del`; `tasks::get_by_id` and `tasks::remove` are taken as the
lookup and removal of a pool (`modules/tasks.h` is not among the sources). -/
def task_operations.del (w : pools) (_tag : tag_info) (arg : cell) : Bool × pools :=
  if (w.tasks.get_by_id arg).1 then
    ((w.tasks.remove (w.tasks.get_by_id arg).2).1,
      { w with tasks := (w.tasks.remove (w.tasks.get_by_id arg).2).2 })
  else (false, w)

/-- Method `task_operations::free`. -/
def task_operations.free (w : pools) (tag : tag_info) (arg : cell) : Bool × pools :=
  task_operations.del w tag arg

/-- Method `task_operations::copy`: `return tasks::remove(task);`, the `bool` converted to
a cell. -/
def task_operations.copy (w : pools) (_tag : tag_info) (arg : cell) : cell × pools :=
  if (w.tasks.get_by_id arg).1 then
    (if (w.tasks.remove (w.tasks.get_by_id arg).2).1 then 1 else 0,
      { w with tasks := (w.tasks.remove (w.tasks.get_by_id arg).2).2 })
  else (0, w)

/-- Method `task_operations::clone`. -/
def task_operations.clone (w : pools) (tag : tag_info) (arg : cell) : cell × pools :=
  task_operations.copy w tag arg

/-! ## Deep free through the dispatcher -/

/-- Modelled from the spec: the call `invoke(tag, arg)` of a registered override as the
pools see it.  The callback is script code run by `amx_Exec`; it can call back into the
operation tables and change the pools, and it need not return: the result is `none`
when it does not return, and else the result cell with the pools afterwards. -/
abbrev script_run := op_handler → tag_info → cell → pools → Option (cell × pools)

/-- Method `dynamic_operations::free` on the pools: without a registered `free` override
`op_un` returns 0 and nothing runs; with one, the callback runs and its result cell is
converted to `bool`. -/
def dynamic_operations.free_run (script : script_run) (self : dynamic_operations)
    (w : pools) (tag : tag_info) (arg : cell) : Option (Bool × pools) :=
  match self.dyn_ops op_type.free with
  | some h =>
    match script h tag arg w with
    | none => none
    | some r => some (r.1 != 0, r.2)
  | none => some (false, w)

/-- The virtual call `ops.free(tag, arg)` on a table of `op_map`; `obj_free` is
`dyn_object::free` and `script` the run of an override callback.  The tables without
`free` or `del` of their own run `null_operations::free`. -/
def tag_operations.free (script : script_run) (obj_free : dyn_object → pools → Option pools)
    (w : pools) (tag : tag_info) (arg : PawnPlus.cell) :
    tag_operations → Option (Bool × pools)
  | tag_operations.string => some (string_operations.free w tag arg)
  | tag_operations.variant => variant_operations.free obj_free w tag arg
  | tag_operations.list => list_operations.free obj_free w tag arg
  | tag_operations.map => map_operations.free obj_free w tag arg
  | tag_operations.iter => some (iter_operations.free w tag arg)
  | tag_operations.task => some (task_operations.free w tag arg)
  | tag_operations.dynamic d => d.free_run script w tag arg
  | _ => some (null_operations.free (null_operations.del tag) arg, w)

/-- The loop of `dyn_object::free` over the cells held: `free` is the call
`tag->get_ops().free(tag, c)`. -/
def dyn_object.free_cells (free : cell → pools → Option (Bool × pools)) :
    List cell → pools → Option pools
  | [], w => some w
  | c :: cs, w =>
    match free c w with
    | none => none
    | some r => dyn_object.free_cells free cs r.2

/-- Modelled from the spec: `dyn_object::free` (not among the sources), the deep free of a
boxed value: the `free` of the table of its tag, looked up by `get_ops` with the bound
`gfuel`, on each cell it holds.  `fuel` bounds the nesting of boxed values; `none` when a
bound is used up, the slot holds no table, or a callback does not return. -/
def dyn_object.free (script : script_run) (ids : tags) (mem : tag_memory) (m : op_map_t)
    (gfuel : Nat) : Nat → dyn_object → pools → Option pools
  | 0, _, _ => none
  | fuel + 1, obj, w =>
    match tag_info.get_ops ids mem m gfuel obj.tag with
    | none => none
    | some key =>
      match m key with
      | none => none
      | some ops =>
        dyn_object.free_cells
          (fun c w1 =>
            tag_operations.free script (dyn_object.free script ids mem m gfuel fuel) w1
              (mem obj.tag) c ops)
          obj.cells w

/-- That every entry of the string, variant, list and map pools of `w` is an entry of `w0`
with the same object: `w` is `w0` with entries removed. -/
def pools.sub (w w0 : pools) : Prop :=
  (∀ h v, w.strings.objects h = some v → w0.strings.objects h = some v) ∧
  (∀ h v, w.variants.objects h = some v → w0.variants.objects h = some v) ∧
  (∀ h v, w.list_pool.objects h = some v → w0.list_pool.objects h = some v) ∧
  (∀ h v, w.map_pool.objects h = some v → w0.map_pool.objects h = some v)

/-- That the run `run` of a free, started in any pools `w` within `w0`, returns, only
removes entries, and leaves the list `L` with the elements `esL` in the list pool when it
was there. -/
def frees_within (w0 : pools) (L : Int) (esL : list_t) (run : pools → Option pools) : Prop :=
  ∀ w, pools.sub w w0 → ∃ w1, run w = some w1 ∧ pools.sub w1 w ∧
    (w.list_pool.objects L = some esL → w1.list_pool.objects L = some esL)

/-! ## The reference table: `ref_operations` -/

/-- Modelled from the spec: the tag registry (`tags.h` is not among the sources):
`find_tag` is `tags::find_tag` on an id, which always yields a tag, and `find_tag_name` is
`tags::find_tag` on a name, `none` for a null pointer. -/
structure tag_registry where
  find_tag : cell → tag_ptr
  find_tag_name : String → Option tag_ptr

/-- Modelled from the spec: `tag_info::inherits_from` (not among the sources): whether the
walk along the base chain from the tag reaches `parent`, with at most `fuel` steps (`none`
when the bound is used up). -/
def tag_info.inherits_from (mem : tag_memory) : Nat → tag_ptr → tag_ptr → Option Bool
  | 0, _, _ => none
  | fuel + 1, this, parent =>
    if this = parent then some true
    else
      match (mem this).base with
      | none => some false
      | some base => tag_info.inherits_from mem fuel base parent

/-- Method `ref_operations::append_string` on the tag at address `tag`.  `to_string_of key`
is the virtual `to_string` of the table in the slot `key` of `op_map`.  The result is
`none` when a bound is used up, when `substr` throws because the name is too short, and
when the tag of the remaining name is not found. -/
def ref_operations.append_string (ids : tags) (mem : tag_memory) (m : op_map_t)
    (registry : tag_registry) (to_string_of : cell → tag_ptr → cell → Option cell_string)
    (gfuel fuel : Nat) (tag : tag_ptr) (arg : cell) (str : cell_string) :
    Option cell_string :=
  match (if tag ≠ registry.find_tag ids.tag_ref
      then tag_info.inherits_from mem fuel tag (registry.find_tag ids.tag_ref)
      else some false) with
  | none => none
  | some true =>
    if (mem (registry.find_tag ids.tag_ref)).name.length + 1 ≤ (mem tag).name.length then
      match registry.find_tag_name
          (String.mk ((mem tag).name.data.drop
            ((mem (registry.find_tag ids.tag_ref)).name.length + 1))) with
      | none => none
      | some subtag =>
        match tag_info.get_ops ids mem m gfuel subtag with
        | none => none
        | some key =>
          match to_string_of key subtag arg with
          | none => none
          | some text => some (str ++ text)
    else none
  | some false => some (null_operations.append_string (mem tag) arg str)

/-! ## Hashing: `hash_combine` and `string_operations::hash` -/

/-- The function `hash_combine` on a seed of type `size_t`, a word of `size_bits` bits:
`seed ^= hasher(v) + 0x9e3779b9 + (seed << 6) + (seed >> 2)`; `std_hash` is `std::hash` of
the value. -/
def hash_combine (std_hash : cell → Nat) (size_bits : Nat) (seed : Nat) (v : cell) : Nat :=
  seed ^^^ ((std_hash v + 2654435769 + seed * 64 % 2 ^ size_bits + seed / 4) % 2 ^ size_bits)

/-- The `std::hash` of a cell taken as the identity on its value, converted to `size_t`. -/
def std_hash_identity (size_bits : Nat) (v : cell) : Nat :=
  (v % (2 : Int) ^ size_bits).toNat

/-- Method `string_operations::hash`: the loop over the characters of a valid string folds
`hash_combine` from the seed 0; any other handle gets `null_operations::hash`. -/
def string_operations.hash (std_hash : cell → Nat) (size_bits : Nat) (w : pools)
    (tag : tag_info) (arg : cell) : Nat :=
  if (w.strings.get_by_id arg).1 then
    ((w.strings.objects arg).getD []).foldl (hash_combine std_hash size_bits) 0
  else null_operations.hash std_hash tag arg

/-! ## The well-known ids and the shape of `op_map` -/

/-- The twelve well-known ids. -/
def tags.well_known (ids : tags) : List cell :=
  [ids.tag_unknown, ids.tag_cell, ids.tag_bool, ids.tag_char, ids.tag_float, ids.tag_string,
    ids.tag_variant, ids.tag_list, ids.tag_map, ids.tag_iter, ids.tag_ref, ids.tag_task]

/-- The pairs that the initializer of `op_map` inserts, in its order. -/
def builtin_tables (ids : tags) : List (cell × tag_operations) :=
  [(ids.tag_unknown, tag_operations.null ids.tag_unknown),
    (ids.tag_cell, tag_operations.cell ids.tag_cell),
    (ids.tag_bool, tag_operations.bool), (ids.tag_char, tag_operations.char),
    (ids.tag_float, tag_operations.float), (ids.tag_string, tag_operations.string),
    (ids.tag_variant, tag_operations.variant), (ids.tag_list, tag_operations.list),
    (ids.tag_map, tag_operations.map), (ids.tag_iter, tag_operations.iter),
    (ids.tag_ref, tag_operations.ref), (ids.tag_task, tag_operations.task)]

/-- The shape every `op_map` of a run has: each well-known id holds a table that is not a
dynamic one, and every other id that holds a table holds a dynamic one. -/
def op_map_shape (ids : tags) (m : op_map_t) : Prop :=
  (∀ k ∈ ids.well_known, ∃ t, m k = some t ∧ t.is_dynamic = false) ∧
  (∀ k t, k ∉ ids.well_known → m k = some t → t.is_dynamic = true)

/-! ## Concrete inputs -/

/-- A script host in which every instance is valid, every public exists at index 0 and
execution returns the number of pushes. -/
def host_example : script_host where
  valid := fun _ => true
  find_public := fun _ _ => some 0
  exec := fun _ _ stack => some stack.length
  create_param := fun _ _ _ argi _ => some (⟨0⟩, argi + 1)

/-- A user tag with id 100 and no base. -/
def tag_example : tag_info := ⟨100, "T", none⟩

/-- The well-known ids numbered from 0 to 11. -/
def ids_example : tags := ⟨0, 1, 2, 3, 4, 5, 6, 7, 8, 9, 10, 11⟩

/-- A tag memory: the tag at address 1 has id 101 and base 0, every other address holds
the user tag with id 100 and no base. -/
def mem_example : tag_memory := fun p => if p = 1 then ⟨101, "U", some 0⟩ else tag_example

/-- A tag memory with the string tag (id 5) at address 2 and the list tag (id 7) at
address 3; the other addresses are as in `mem_example`. -/
def mem_pools_example : tag_memory := fun p =>
  if p = 2 then ⟨5, "String", none⟩ else if p = 3 then ⟨7, "List", none⟩ else mem_example p

/-- Pools with the string `ab` at handle 1, an empty boxed value at handle 1 and the boxed
cell 5 at handle 2, a list at handle 1 whose one element is the boxed string 1, a cursor at
handle 1 and a task at handle 1. -/
def pools_example : pools where
  strings := ⟨umap.empty.assign 1 [97, 98], 2⟩
  variants := ⟨(umap.empty.assign 1 ⟨0, []⟩).assign 2 ⟨0, [5]⟩, 3⟩
  list_pool := ⟨umap.empty.assign 1 [⟨2, [1]⟩], 2⟩
  map_pool := ⟨umap.empty, 1⟩
  iter_pool := ⟨umap.empty.assign 1 ⟨0⟩, 2⟩
  tasks := ⟨umap.empty.assign 1 ⟨0⟩, 2⟩

/-- A registry in which the reference tag is at address 4 and the name `Str` is the tag at
address 2. -/
def registry_example : tag_registry where
  find_tag := fun _ => 4
  find_tag_name := fun s => if s = "Str" then some 2 else none

/-- A tag memory with the reference tag `Ref` (id 10) at address 4 and the tag `Ref@Str`
derived from it at address 5; the other addresses are as in `mem_pools_example`. -/
def mem_ref_example : tag_memory := fun p =>
  if p = 4 then ⟨10, "Ref", none⟩
  else if p = 5 then ⟨102, "Ref@Str", some 4⟩
  else mem_pools_example p

/-- Without an override, `op_bin` answers 0. -/
theorem dynamic_operations.op_bin_absent (host : script_host) (self : dynamic_operations)
    (tag : tag_info) (op : op_type) (a b : cell) (h : self.dyn_ops op = none) :
    self.op_bin host tag op a b = 0 := by
  simp [dynamic_operations.op_bin, h]

/-- Without an override, `op_un` answers 0. -/
theorem dynamic_operations.op_un_absent (host : script_host) (self : dynamic_operations)
    (tag : tag_info) (op : op_type) (a : cell) (h : self.dyn_ops op = none) :
    self.op_un host tag op a = 0 := by
  simp [dynamic_operations.op_un, h]

/-- The operation kinds on which a dynamic table without override and the default table
agree: the arithmetic ones, `del` and `free`. -/
theorem dynamic_agrees_with_null_arith (host : script_host) (tag : tag_info) (uid a b : cell) :
    (dynamic_operations.new uid).add host tag a b = null_operations.add tag a b ∧
    (dynamic_operations.new uid).sub host tag a b = null_operations.sub tag a b ∧
    (dynamic_operations.new uid).mul host tag a b = null_operations.mul tag a b ∧
    (dynamic_operations.new uid).div host tag a b = null_operations.div tag a b ∧
    (dynamic_operations.new uid).mod host tag a b = null_operations.mod tag a b ∧
    (dynamic_operations.new uid).neg host tag a = null_operations.neg tag a ∧
    (dynamic_operations.new uid).del host tag a = null_operations.del tag a ∧
    (dynamic_operations.new uid).free host tag a =
      null_operations.free (null_operations.del tag) a := by
  simp [dynamic_operations.add, dynamic_operations.sub, dynamic_operations.mul,
    dynamic_operations.div, dynamic_operations.mod, dynamic_operations.neg,
    dynamic_operations.del, dynamic_operations.free, dynamic_operations.op_bin,
    dynamic_operations.op_un, dynamic_operations.new, umap.empty, null_operations.add,
    null_operations.sub, null_operations.mul, null_operations.div, null_operations.mod,
    null_operations.neg, null_operations.del, null_operations.free]

/-- C1 (the code at the failing input): on a dynamic table with no override at all,
scalar `equals` of the equal cells 5 and 5 is `false` and array `equals` of the equal
arrays `[5]` and `[5]` is `false`, while the default table answers `true`; `copy` and
`clone` of 5 return 0, while the default table returns 5; `hash` is 0 for every cell. -/
theorem dynamic_without_override_differs (host : script_host) (tag : tag_info) (uid : cell) :
    (dynamic_operations.new uid).equals host tag 5 5 = false ∧
    null_operations.equals tag 5 5 = true ∧
    (dynamic_operations.new uid).equals_array host tag [5] [5] 1 = false ∧
    null_operations.equals_array (null_operations.equals tag) [5] [5] 1 = true ∧
    (dynamic_operations.new uid).copy host tag 5 = 0 ∧
    null_operations.copy tag 5 = 5 ∧
    (dynamic_operations.new uid).clone host tag 5 = 0 ∧
    null_operations.clone (null_operations.copy tag) 5 = 5 ∧
    (∀ size_bits arg, (dynamic_operations.new uid).hash host size_bits tag arg = 0) := by
  simp [dynamic_operations.equals, dynamic_operations.equals_array, dynamic_operations.copy,
    dynamic_operations.clone, dynamic_operations.hash, dynamic_operations.op_bin,
    dynamic_operations.op_un, dynamic_operations.new, umap.empty, null_operations.equals,
    null_operations.equals_array, null_operations.equals_loop, null_operations.copy,
    null_operations.clone]

/-- On a locked table every sequence of `set_op` and `lock` calls is answered `false`
throughout and leaves the table as it was. -/
theorem control_call.run_locked (host : script_host) (t : dynamic_operations)
    (h : t._locked = true) (calls : List control_call) :
    control_call.run host t calls = (List.replicate calls.length false, t) := by
  induction calls with
  | nil => rfl
  | cons c cs ih =>
    have hc : c.apply host t = (false, t) := by
      cases c <;> simp [control_call.apply, dynamic_operations.set_op,
        dynamic_operations.lock, h]
    simp [control_call.run, hc, ih, List.replicate_succ]

/-- C2: on a table that is not locked, `set_op` without extra-argument format returns
`true` and stores the new handler under its kind (replacing what was there, other kinds
kept, table still unlocked); the first `lock` returns `true` and sets the flag, keeping
the entries; after it every call of every later sequence of `set_op` and `lock` calls
returns `false` and the table stays as the `lock` left it. -/
theorem set_op_lock_state_machine (host : script_host) (t : dynamic_operations)
    (h : t._locked = false) :
    (∀ (type : op_type) (amx : amx_ptr) (handler : String) (args : List cell) (numargs : Int),
      (t.set_op host type amx handler none args numargs).1 = true ∧
      (t.set_op host type amx handler none args numargs).2.dyn_ops type
        = some ⟨type, amx, [], handler⟩ ∧
      (∀ k, k ≠ type →
        (t.set_op host type amx handler none args numargs).2.dyn_ops k = t.dyn_ops k) ∧
      (t.set_op host type amx handler none args numargs).2._locked = false ∧
      (t.set_op host type amx handler none args numargs).2.tag_uid = t.tag_uid) ∧
    t.lock.1 = true ∧ t.lock.2._locked = true ∧ t.lock.2.dyn_ops = t.dyn_ops ∧
    (∀ calls : List control_call,
      (control_call.run host t.lock.2 calls).1 = List.replicate calls.length false ∧
      (control_call.run host t.lock.2 calls).2 = t.lock.2) := by
  have hl : t.lock = (true, { t with _locked := true }) := by
    simp [dynamic_operations.lock, h]
  refine ⟨?_, ?_, ?_, ?_, ?_⟩
  · intro type amx handler args numargs
    have hs : t.set_op host type amx handler none args numargs
        = (true, { t with dyn_ops := t.dyn_ops.assign type ⟨type, amx, [], handler⟩ }) := by
      simp [dynamic_operations.set_op, h, op_handler.new]
    rw [hs]
    refine ⟨rfl, ?_, ?_, h, rfl⟩
    · simp [umap.assign]
    · intro k hk
      simp [umap.assign, hk]
  · rw [hl]
  · rw [hl]
  · rw [hl]
  · intro calls
    rw [control_call.run_locked host t.lock.2 (by rw [hl]) calls]
    exact ⟨rfl, rfl⟩

/-- C2 at a concrete table: the fresh table of tag 100 is unlocked, so `set_op` and the
first `lock` succeed on it and the locked table rejects everything. -/
theorem set_op_lock_state_machine_witness :
    (dynamic_operations.new 100)._locked = false ∧
    (dynamic_operations.new 100).lock.1 = true ∧
    (control_call.run host_example (dynamic_operations.new 100).lock.2
      [control_call.lock, control_call.set_op op_type.add 7 "OnAdd" none [] 0]).1
      = [false, false] :=
  ⟨rfl, (set_op_lock_state_machine host_example (dynamic_operations.new 100) rfl).2.1,
    ((set_op_lock_state_machine host_example (dynamic_operations.new 100) rfl).2.2.2.2
      [control_call.lock, control_call.set_op op_type.add 7 "OnAdd" none [] 0]).1⟩

/-- C3: on a locked table, `set_op` (with any arguments, format included) returns `false`
and leaves the table, entries and lock flag, exactly as it was; `lock` returns `false`
and leaves the table exactly as it was. -/
theorem locked_calls_have_no_effect (host : script_host) (t : dynamic_operations)
    (h : t._locked = true) :
    (∀ (type : op_type) (amx : amx_ptr) (handler : String) (add_format : Option String)
        (args : List cell) (numargs : Int),
      t.set_op host type amx handler add_format args numargs = (false, t)) ∧
    t.lock = (false, t) := by
  constructor
  · intro type amx handler add_format args numargs
    simp [dynamic_operations.set_op, h]
  · simp [dynamic_operations.lock, h]

/-- C3 at a concrete table: the table of tag 100 after `lock` is locked, and a `set_op`
with a format and a second `lock` leave it as it is. -/
theorem locked_calls_have_no_effect_witness :
    (dynamic_operations.new 100).lock.2._locked = true ∧
    (dynamic_operations.new 100).lock.2.set_op host_example op_type.equals 7 "OnEq"
      (some "d") [3] 1 = (false, (dynamic_operations.new 100).lock.2) ∧
    (dynamic_operations.new 100).lock.2.lock = (false, (dynamic_operations.new 100).lock.2) :=
  ⟨rfl,
    (locked_calls_have_no_effect host_example (dynamic_operations.new 100).lock.2 rfl).1
      op_type.equals 7 "OnEq" (some "d") [3] 1,
    (locked_calls_have_no_effect host_example (dynamic_operations.new 100).lock.2 rfl).2⟩

/-! ## Theorems: the dispatcher -/

/-- An `insert` keeps every entry the map already has. -/
theorem umap.insert_keeps {K V : Type} [DecidableEq K] (m : umap K V) (k k2 : K) (v t : V)
    (h : m k2 = some t) : m.insert k v k2 = some t := by
  unfold umap.insert
  cases hk : m k with
  | some u => exact h
  | none =>
    have hne : k2 ≠ k := by
      intro e
      rw [e, hk] at h
      exact Option.noConfusion h
    simp [umap.assign, hne, h]

/-- The initial `op_map` has the default table in the slot of the unknown tag, so the last
branch of `get_ops` finds a table there and `op_map[tags::tag_unknown]` inserts nothing. -/
theorem op_map_unknown_registered (ids : tags) :
    op_map ids ids.tag_unknown = some (tag_operations.null ids.tag_unknown) := by
  unfold op_map
  iterate 11 apply umap.insert_keeps
  simp [umap.insert, umap.empty, umap.assign]

/-- Whatever the call, `get_control` keeps every entry that `op_map` already has. -/
theorem tag_info.get_control_keeps (m : op_map_t) (self : tag_info) (k : cell)
    (t : tag_operations) (h : m k = some t) : (tag_info.get_control m self).2 k = some t := by
  unfold tag_info.get_control
  cases hu : m self.uid with
  | some u => simpa using h
  | none =>
    have hk : k ≠ self.uid := by
      intro e
      rw [e, hu] at h
      exact Option.noConfusion h
    simp [umap.assign, hk, h]

/-- A sequence of dispatcher calls keeps every entry that `op_map` already has. -/
theorem dispatch_call.run_keeps (mem : tag_memory) (calls : List dispatch_call) :
    ∀ (m : op_map_t) (k : cell) (t : tag_operations),
      m k = some t → dispatch_call.run mem m calls k = some t := by
  induction calls with
  | nil => intro m k t h; exact h
  | cons c cs ih =>
    intro m k t h
    apply ih
    cases c with
    | get_ops p => exact h
    | get_control p => exact tag_info.get_control_keeps m (mem p) k t h

/-- C4 (counterexample): for the user tag 100 without base, with nothing registered
under 100 in the initial `op_map`, `get_ops` returns the slot 0 of the unknown tag, which
holds the default table and not a dynamic one, and slot 100 stays without a table. -/
theorem get_ops_does_not_create :
    op_map ids_example (mem_example 0).uid = none ∧
    (∀ fuel, tag_info.get_ops ids_example mem_example (op_map ids_example) (fuel + 1) 0
      = some 0) ∧
    (mem_example 0).uid = 100 ∧
    (∃ t, op_map ids_example 0 = some t ∧ t.is_dynamic = false) := by
  refine ⟨rfl, fun fuel => ?_, rfl, ⟨tag_operations.null 0, rfl, rfl⟩⟩
  have h : op_map ids_example (mem_example 0).uid = none := rfl
  have hb : (mem_example 0).base = none := rfl
  simp only [tag_info.get_ops, h, hb]
  rfl

/-- C4 (amended): if a table, built-in or dynamic, is registered under the tag's id,
`get_ops` returns it; otherwise `get_ops` returns what `get_ops` of the base tag returns,
and the slot of the unknown tag when there is no base.  The empty, unlocked dynamic
table is created and registered under the tag's id by `get_control`, which returns it,
when no table is registered under that id. -/
theorem get_ops_lookup (ids : tags) (mem : tag_memory) (m : op_map_t) (fuel : Nat)
    (this : tag_ptr) :
    (∀ t, m (mem this).uid = some t →
      tag_info.get_ops ids mem m (fuel + 1) this = some (mem this).uid) ∧
    (m (mem this).uid = none → ∀ base, (mem this).base = some base →
      tag_info.get_ops ids mem m (fuel + 1) this = tag_info.get_ops ids mem m fuel base) ∧
    (m (mem this).uid = none → (mem this).base = none →
      tag_info.get_ops ids mem m (fuel + 1) this = some ids.tag_unknown) ∧
    (m (mem this).uid = none →
      tag_info.get_control m (mem this)
        = (some (mem this).uid,
            m.assign (mem this).uid
              (tag_operations.dynamic ⟨(mem this).uid, false, umap.empty⟩))) := by
  refine ⟨?_, ?_, ?_, ?_⟩
  · intro t h
    simp [tag_info.get_ops, h]
  · intro h base hb
    simp [tag_info.get_ops, h, hb]
  · intro h hb
    simp [tag_info.get_ops, h, hb]
  · intro h
    simp [tag_info.get_control, h, dynamic_operations.new]

/-- C4 (amended) at concrete tags: the tag 101 at address 1 has no table and the base 0,
so its `get_ops` is the one of the tag at 0, which has neither and gets the unknown slot;
`get_control` on it registers a dynamic table under 101, which `get_ops` then returns. -/
theorem get_ops_lookup_witness :
    op_map ids_example (mem_example 1).uid = none ∧
    (mem_example 1).base = some 0 ∧
    tag_info.get_ops ids_example mem_example (op_map ids_example) 2 1
      = tag_info.get_ops ids_example mem_example (op_map ids_example) 1 0 ∧
    tag_info.get_control (op_map ids_example) (mem_example 1)
      = (some (mem_example 1).uid,
          (op_map ids_example).assign (mem_example 1).uid
            (tag_operations.dynamic ⟨(mem_example 1).uid, false, umap.empty⟩)) :=
  ⟨rfl, rfl,
    (get_ops_lookup ids_example mem_example (op_map ids_example) 1 1).2.1 rfl 0 rfl,
    (get_ops_lookup ids_example mem_example (op_map ids_example) 1 1).2.2.2 rfl⟩

/-- The slot that `first_registered` selects is the id of the first tag of the list with a
registered table, and the id of the unknown tag when no tag of the list has one. -/
theorem first_registered_spec (ids : tags) (mem : tag_memory) (m : op_map_t)
    (l : List tag_ptr) :
    (∃ l1 p l2, l = l1 ++ p :: l2 ∧ (∀ q ∈ l1, m (mem q).uid = none) ∧
      (m (mem p).uid).isSome = true ∧ first_registered ids mem m l = (mem p).uid) ∨
    ((∀ q ∈ l, m (mem q).uid = none) ∧ first_registered ids mem m l = ids.tag_unknown) := by
  induction l with
  | nil => exact Or.inr ⟨by simp, rfl⟩
  | cons p l ih =>
    cases hp : m (mem p).uid with
    | some t =>
      exact Or.inl ⟨[], p, l, rfl, by simp, by simp [hp], by simp [first_registered, hp]⟩
    | none =>
      have hf : first_registered ids mem m (p :: l) = first_registered ids mem m l := by
        simp [first_registered, hp]
      rcases ih with ⟨l1, q, l2, hl, hnone, hsome, hr⟩ | ⟨hnone, hr⟩
      · refine Or.inl ⟨p :: l1, q, l2, by simp [hl], ?_, hsome, by rw [hf, hr]⟩
        intro x hx
        rcases List.mem_cons.mp hx with rfl | hx
        · exact hp
        · exact hnone x hx
      · refine Or.inr ⟨?_, by rw [hf, hr]⟩
        intro x hx
        rcases List.mem_cons.mp hx with rfl | hx
        · exact hp
        · exact hnone x hx

/-- With as many nested calls allowed as the base chain is long, `get_ops` returns the
slot selected by `first_registered`. -/
theorem tag_info.get_ops_chain (ids : tags) (mem : tag_memory) (m : op_map_t)
    (l : List tag_ptr) :
    ∀ (this : tag_ptr), base_chain mem this l → ∀ fuel, l.length ≤ fuel →
      tag_info.get_ops ids mem m fuel this = some (first_registered ids mem m l) := by
  induction l with
  | nil => intro this h; exact absurd h (by simp [base_chain])
  | cons p l ih =>
    intro this h fuel hfuel
    cases fuel with
    | zero => simp at hfuel
    | succ fuel =>
      cases l with
      | nil =>
        obtain ⟨rfl, hb⟩ := h
        cases hp : m (mem p).uid with
        | some t => simp [tag_info.get_ops, first_registered, hp]
        | none => simp [tag_info.get_ops, first_registered, hp, hb]
      | cons q l =>
        obtain ⟨rfl, hb, hq⟩ := h
        cases hp : m (mem p).uid with
        | some t => simp [tag_info.get_ops, first_registered, hp]
        | none =>
          have hlen : (q :: l).length ≤ fuel := by
            simp only [List.length_cons] at hfuel ⊢
            omega
          have := ih q hq fuel hlen
          simp only [tag_info.get_ops, hp, hb, this]
          simp [first_registered, hp]

/-- The slot selected on a chain depends only on which ids of the chain have a table. -/
theorem first_registered_congr (ids : tags) (mem : tag_memory) (m m2 : op_map_t)
    (l : List tag_ptr)
    (h : ∀ q ∈ l, (m2 (mem q).uid).isSome = (m (mem q).uid).isSome) :
    first_registered ids mem m2 l = first_registered ids mem m l := by
  induction l with
  | nil => rfl
  | cons p l ih =>
    have hp := h p (List.mem_cons_self p l)
    have hl := ih (fun q hq => h q (List.mem_cons_of_mem p hq))
    simp only [first_registered, hp, hl]

/-- A sequence of dispatcher calls registers a table under an id only through a
`get_control` call on a tag with that id, made when the id has no table. -/
theorem dispatch_call.run_registers (mem : tag_memory) (k : cell)
    (calls : List dispatch_call) :
    ∀ (m : op_map_t),
      (∀ p, dispatch_call.get_control p ∈ calls → (mem p).uid = k → (m k).isSome = true) →
      (dispatch_call.run mem m calls k).isSome = (m k).isSome := by
  induction calls with
  | nil => intro m _; rfl
  | cons c cs ih =>
    intro m h
    have hstep : ((c.apply mem m) k).isSome = (m k).isSome := by
      cases c with
      | get_ops p => rfl
      | get_control p =>
        simp only [dispatch_call.apply, tag_info.get_control]
        cases hu : m (mem p).uid with
        | some u => rfl
        | none =>
          have hk : k ≠ (mem p).uid := by
            intro e
            have := h p (List.mem_cons_self _ cs) e.symm
            rw [e, hu] at this
            exact absurd this (by simp)
          simp [umap.assign, hk]
    have hrest := ih (c.apply mem m) (fun p hp e => by
      rw [hstep]
      exact h p (List.mem_cons_of_mem c hp) e)
    simp only [dispatch_call.run]
    rw [hrest, hstep]

/-- C5 (counterexample): the user tag 100 (no base, no table) is first served by the slot 0
of the unknown tag; after one `get_control` call on it, `get_ops` on the same tag returns
the slot 100 of the new dynamic table. -/
theorem get_ops_table_can_switch :
    tag_info.get_ops ids_example mem_example (op_map ids_example) 1 0 = some 0 ∧
    tag_info.get_ops ids_example mem_example
      (dispatch_call.run mem_example (op_map ids_example) [dispatch_call.get_control 0]) 1 0
      = some 100 := by
  constructor
  · have h : op_map ids_example (mem_example 0).uid = none := rfl
    have hb : (mem_example 0).base = none := rfl
    simp only [tag_info.get_ops, h, hb]
    rfl
  · have h : op_map ids_example (mem_example 0).uid = none := rfl
    simp [tag_info.get_ops, dispatch_call.run, dispatch_call.apply, tag_info.get_control, h,
      umap.assign]
    rfl

/-- C5 (amended): over every sequence of `get_ops` and `get_control` calls on any tags, no
entry of `op_map` is replaced or removed; once a table is registered under the id of a tag,
`get_ops` on that tag returns that table before and after the sequence; and for a tag with
the finite base chain `l`, `get_ops` returns the same slot before and after the sequence
when no `get_control` call of the sequence is on an id of a chain tag that has no table. -/
theorem registered_table_is_stable (ids : tags) (mem : tag_memory) (m : op_map_t)
    (calls : List dispatch_call) :
    (∀ k t, m k = some t → dispatch_call.run mem m calls k = some t) ∧
    (∀ this t, m (mem this).uid = some t → ∀ fuel,
      tag_info.get_ops ids mem m (fuel + 1) this = some (mem this).uid ∧
      tag_info.get_ops ids mem (dispatch_call.run mem m calls) (fuel + 1) this
        = some (mem this).uid ∧
      dispatch_call.run mem m calls (mem this).uid = some t) ∧
    (∀ this l, base_chain mem this l →
      (∀ p, dispatch_call.get_control p ∈ calls → ∀ q ∈ l,
        (mem p).uid = (mem q).uid → (m (mem q).uid).isSome = true) →
      ∀ fuel, l.length ≤ fuel →
        tag_info.get_ops ids mem (dispatch_call.run mem m calls) fuel this
          = tag_info.get_ops ids mem m fuel this) := by
  refine ⟨dispatch_call.run_keeps mem calls m, ?_, ?_⟩
  · intro this t h fuel
    have h2 := dispatch_call.run_keeps mem calls m _ t h
    refine ⟨?_, ?_, h2⟩
    · simp [tag_info.get_ops, h]
    · simp [tag_info.get_ops, h2]
  · intro this l hl hc fuel hfuel
    rw [tag_info.get_ops_chain ids mem _ l this hl fuel hfuel,
      tag_info.get_ops_chain ids mem m l this hl fuel hfuel]
    congr 1
    apply first_registered_congr
    intro q hq
    exact dispatch_call.run_registers mem (mem q).uid calls m (fun p hp e => hc p hp q hq e)

/-- C5 (amended) at a concrete sequence: the built-in entry of id 1 is still there after
`get_control` calls on the user tags, and the tag at address 0, with the chain `[0]`, is
served by the same slot before and after a `get_control` call on the other user tag. -/
theorem registered_table_is_stable_witness :
    op_map ids_example 1 = some (tag_operations.cell 1) ∧
    dispatch_call.run mem_example (op_map ids_example)
      [dispatch_call.get_control 0, dispatch_call.get_ops 1, dispatch_call.get_control 1] 1
      = some (tag_operations.cell 1) ∧
    base_chain mem_example 0 [0] ∧
    tag_info.get_ops ids_example mem_example
      (dispatch_call.run mem_example (op_map ids_example) [dispatch_call.get_control 1]) 1 0
      = tag_info.get_ops ids_example mem_example (op_map ids_example) 1 0 :=
  ⟨rfl,
    (registered_table_is_stable ids_example mem_example (op_map ids_example)
      [dispatch_call.get_control 0, dispatch_call.get_ops 1, dispatch_call.get_control 1]).1
      1 (tag_operations.cell 1) rfl,
    ⟨rfl, rfl⟩,
    (registered_table_is_stable ids_example mem_example (op_map ids_example)
      [dispatch_call.get_control 1]).2.2 0 [0] ⟨rfl, rfl⟩
      (by
        intro p hp q hq e
        simp only [List.mem_singleton] at hp hq
        cases hp
        subst hq
        exact absurd e (by decide))
      1 (Nat.le_refl 1)⟩

/-- C6: when the base chain of a tag is finite and free of cycles (`l` lists it),
`get_ops` returns, with any bound of at least the length of the chain, the slot whose id
is the id of the first tag of the chain with a registered table, and the slot of the
unknown tag when no tag of the chain has one. -/
theorem get_ops_inheritance_fallback (ids : tags) (mem : tag_memory) (m : op_map_t)
    (this : tag_ptr) (l : List tag_ptr) (h : base_chain mem this l) :
    ∃ k, (∀ fuel, l.length ≤ fuel → tag_info.get_ops ids mem m fuel this = some k) ∧
      ((∃ l1 p l2, l = l1 ++ p :: l2 ∧ (∀ q ∈ l1, m (mem q).uid = none) ∧
          (m (mem p).uid).isSome = true ∧ k = (mem p).uid) ∨
        ((∀ q ∈ l, m (mem q).uid = none) ∧ k = ids.tag_unknown)) :=
  ⟨first_registered ids mem m l, tag_info.get_ops_chain ids mem m l this h,
    first_registered_spec ids mem m l⟩

/-- C6 at a concrete chain: the tag at address 1 has the chain `[1, 0]`; in the initial
`op_map` no tag of it has a table and `get_ops` returns a slot. -/
theorem get_ops_inheritance_fallback_witness :
    base_chain mem_example 1 [1, 0] ∧
    ∃ k, (∀ fuel, [1, 0].length ≤ fuel →
        tag_info.get_ops ids_example mem_example (op_map ids_example) fuel 1 = some k) ∧
      ((∃ l1 p l2, [1, 0] = l1 ++ p :: l2 ∧
          (∀ q ∈ l1, op_map ids_example (mem_example q).uid = none) ∧
          (op_map ids_example (mem_example p).uid).isSome = true ∧ k = (mem_example p).uid) ∨
        ((∀ q ∈ [1, 0], op_map ids_example (mem_example q).uid = none) ∧
          k = ids_example.tag_unknown)) :=
  ⟨⟨rfl, rfl, rfl, rfl⟩,
    get_ops_inheritance_fallback ids_example mem_example (op_map ids_example) 1 [1, 0]
      ⟨rfl, rfl, rfl, rfl⟩⟩

/-! ## Theorems: the integer table -/

/-- The reduction `wrap32` yields the cell congruent to its argument modulo `2^32`. -/
theorem wrap32_spec (x : Int) :
    is_cell (wrap32 x) ∧ (4294967296 : Int) ∣ wrap32 x - x := by
  unfold is_cell wrap32 cell_min cell_max
  omega

/-- Truncating division of naturals seen as integers, with either sign on each side. -/
theorem tdiv_tmod_signed (A B : Nat) :
    Int.tdiv (A : Int) (B : Int) = ((A / B : Nat) : Int) ∧
    Int.tdiv (-(A : Int)) (B : Int) = -((A / B : Nat) : Int) ∧
    Int.tdiv (A : Int) (-(B : Int)) = -((A / B : Nat) : Int) ∧
    Int.tdiv (-(A : Int)) (-(B : Int)) = ((A / B : Nat) : Int) ∧
    Int.tmod (A : Int) (B : Int) = ((A % B : Nat) : Int) ∧
    Int.tmod (-(A : Int)) (B : Int) = -((A % B : Nat) : Int) ∧
    Int.tmod (A : Int) (-(B : Int)) = ((A % B : Nat) : Int) ∧
    Int.tmod (-(A : Int)) (-(B : Int)) = -((A % B : Nat) : Int) := by
  have h1 : Int.tdiv (A : Int) (B : Int) = ((A / B : Nat) : Int) := (Int.ofNat_tdiv A B).symm
  have h2 : Int.tmod (A : Int) (B : Int) = ((A % B : Nat) : Int) := (Int.ofNat_tmod A B).symm
  have h3 : Int.tdiv (-(A : Int)) (B : Int) = -((A / B : Nat) : Int) := by
    rw [Int.neg_tdiv, h1]
  have hdm : (B : Int) * ((A / B : Nat) : Int) + ((A % B : Nat) : Int) = (A : Int) := by
    exact_mod_cast Nat.div_add_mod A B
  have h4 : Int.tmod (-(A : Int)) (B : Int) = -((A % B : Nat) : Int) := by
    have h := Int.tmod_add_tdiv (-(A : Int)) (B : Int)
    rw [h3] at h
    linarith
  refine ⟨h1, h3, ?_, ?_, h2, h4, ?_, ?_⟩
  · rw [Int.tdiv_neg, h1]
  · rw [Int.neg_tdiv_neg, h1]
  · rw [Int.tmod_neg, h2]
  · rw [Int.tmod_neg, h4]

/-- The truncating quotient and remainder of integers: the quotient is the product of the
signs and the quotient of the magnitudes, the remainder is what is left, smaller in
magnitude than the divisor and of the sign of the dividend. -/
theorem tdiv_tmod_trunc (a b : Int) (hb : b ≠ 0) :
    Int.tdiv a b = a.sign * b.sign * ((a.natAbs / b.natAbs : Nat) : Int) ∧
    Int.tmod a b = a - b * Int.tdiv a b ∧
    (Int.tmod a b).natAbs < b.natAbs ∧
    (0 ≤ a → 0 ≤ Int.tmod a b) ∧ (a ≤ 0 → Int.tmod a b ≤ 0) := by
  have hsub : Int.tmod a b = a - b * Int.tdiv a b := by
    have h := Int.tmod_add_tdiv a b
    linarith
  refine ⟨?_, hsub, ?_⟩
  · obtain ⟨A, rfl | rfl⟩ := Int.eq_nat_or_neg a <;>
    obtain ⟨B, rfl | rfl⟩ := Int.eq_nat_or_neg b <;>
    obtain ⟨h1, h2, h3, h4, -⟩ := tdiv_tmod_signed A B
    all_goals
      have hB : 0 < B := by
        rcases Nat.eq_zero_or_pos B with h | h
        · subst h; simp at hb
        · exact h
      have hsB : (B : Int).sign = 1 := Int.sign_eq_one_of_pos (by exact_mod_cast hB)
      rcases Nat.eq_zero_or_pos A with hA | hA
      · subst hA; simp
      · have hsA : (A : Int).sign = 1 := Int.sign_eq_one_of_pos (by exact_mod_cast hA)
        simp [h1, h2, h3, h4, hsA, hsB, Int.sign_neg]
  · obtain ⟨A, rfl | rfl⟩ := Int.eq_nat_or_neg a <;>
    obtain ⟨B, rfl | rfl⟩ := Int.eq_nat_or_neg b <;>
    obtain ⟨-, -, -, -, h5, h6, h7, h8⟩ := tdiv_tmod_signed A B
    all_goals
      have hB : 0 < B := by
        rcases Nat.eq_zero_or_pos B with h | h
        · subst h; simp at hb
        · exact h
      have hlt : A % B < B := Nat.mod_lt A hB
      have hle : A % B ≤ A := Nat.mod_le A B
      simp only [h5, h6, h7, h8, Int.natAbs_neg, Int.natAbs_ofNat]
      refine ⟨hlt, ?_, ?_⟩ <;> intro h <;> omega

/-- The truncating quotient of two cells is a cell, the overflowing pair apart. -/
theorem tdiv_is_cell (a b : Int) (ha : is_cell a) (hb : is_cell b)
    (hex : ¬(a = cell_min ∧ b = -1)) : is_cell (Int.tdiv a b) := by
  unfold is_cell cell_min cell_max at *
  have hq : (Int.tdiv a b).natAbs = a.natAbs / b.natAbs := Int.natAbs_tdiv a b
  have hle : a.natAbs / b.natAbs ≤ a.natAbs := Nat.div_le_self _ _
  constructor
  · omega
  · by_contra hcon
    have h1 : a.natAbs / b.natAbs = 2147483648 := by omega
    have h2 : a = -2147483648 := by omega
    have h3 : b.natAbs < 2 := by
      by_contra h
      have : a.natAbs / b.natAbs ≤ a.natAbs / 2 := Nat.div_le_div_left (by omega) (by omega)
      omega
    have h4 : b = 1 ∨ b = 0 ∨ b = -1 := by omega
    rcases h4 with h | h | h
    · subst h
      rw [Int.tdiv_one] at hcon
      omega
    · subst h
      simp at hcon
    · exact hex ⟨h2, h⟩

/-- C7: on cells `a`, `b`, the integer table's `add`, `sub`, `mul` and `neg` return the cell
congruent modulo `2^32` to `a + b`, `a - b`, `a * b` and `-a`; for `b` other than 0, the
pair `a = -2^31`, `b = -1` excluded, `div` returns the quotient truncated toward zero (signs
multiplied, magnitudes divided) and `mod` returns `a - b * div a b`, which is smaller in
magnitude than `b` and has the sign of `a`; both are cells. -/
theorem cell_arithmetic (tag : tag_info) (a b : cell) (ha : is_cell a) (hb : is_cell b) :
    (is_cell (cell_operations.add tag a b) ∧
      (4294967296 : Int) ∣ cell_operations.add tag a b - (a + b)) ∧
    (is_cell (cell_operations.sub tag a b) ∧
      (4294967296 : Int) ∣ cell_operations.sub tag a b - (a - b)) ∧
    (is_cell (cell_operations.mul tag a b) ∧
      (4294967296 : Int) ∣ cell_operations.mul tag a b - a * b) ∧
    (is_cell (cell_operations.neg tag a) ∧
      (4294967296 : Int) ∣ cell_operations.neg tag a - (-a)) ∧
    (b ≠ 0 → ¬(a = cell_min ∧ b = -1) →
      ∃ q r, cell_operations.div tag a b = some q ∧ cell_operations.mod tag a b = some r ∧
        is_cell q ∧ is_cell r ∧
        q = a.sign * b.sign * ((a.natAbs / b.natAbs : Nat) : Int) ∧
        r = a - b * q ∧ r.natAbs < b.natAbs ∧ (0 ≤ a → 0 ≤ r) ∧ (a ≤ 0 → r ≤ 0)) := by
  refine ⟨wrap32_spec _, wrap32_spec _, wrap32_spec _, wrap32_spec _, ?_⟩
  intro hb0 hex
  obtain ⟨hq, hr, hlt, hpos, hneg⟩ := tdiv_tmod_trunc a b hb0
  refine ⟨Int.tdiv a b, Int.tmod a b, ?_, ?_, tdiv_is_cell a b ha hb hex, ?_,
    hq, hr, hlt, hpos, hneg⟩
  · simp [cell_operations.div, hb0, hex]
  · simp [cell_operations.mod, hb0, hex]
  · unfold is_cell cell_min cell_max at *
    omega

/-- C7 at concrete cells: `-7` and `2` are cells, and the table computes on them. -/
theorem cell_arithmetic_witness :
    is_cell (-7) ∧ is_cell 2 ∧
    is_cell (cell_operations.add tag_example (-7) 2) ∧
    ∃ q r, cell_operations.div tag_example (-7) 2 = some q ∧
      cell_operations.mod tag_example (-7) 2 = some r ∧
      is_cell q ∧ is_cell r ∧
      q = (-7 : Int).sign * (2 : Int).sign * (((-7 : Int).natAbs / (2 : Int).natAbs : Nat) : Int) ∧
      r = -7 - 2 * q ∧ r.natAbs < (2 : Int).natAbs ∧ ((0 : Int) ≤ -7 → 0 ≤ r) ∧
      ((-7 : Int) ≤ 0 → r ≤ 0) :=
  ⟨by decide, by decide,
    (cell_arithmetic tag_example (-7) 2 (by decide) (by decide)).1.1,
    (cell_arithmetic tag_example (-7) 2 (by decide) (by decide)).2.2.2.2 (by decide)
      (by decide)⟩

/-- C8 (the code at the failing inputs): the integer table's `div` and `mod` have no
result on the divisor 0, nor on the pair `-2^31`, `-1`: the division traps. -/
theorem cell_div_mod_trap (tag : tag_info) (a : cell) :
    cell_operations.div tag a 0 = none ∧ cell_operations.mod tag a 0 = none ∧
    cell_operations.div tag (-2147483648) (-1) = none ∧
    cell_operations.mod tag (-2147483648) (-1) = none := by
  simp [cell_operations.div, cell_operations.mod, cell_min]

/-! ## Theorems: array equality -/

/-- The loop of the default array `equals` answers `true` exactly when the scalar `equals`
holds at each of the `k` indices from `i` on. -/
theorem null_operations.equals_loop_iff (equals : cell → cell → Bool) (a b : List cell) :
    ∀ (k i : Nat), null_operations.equals_loop equals a b k i = true ↔
      ∀ j, i ≤ j → j < i + k → equals (a.getD j 0) (b.getD j 0) = true := by
  intro k
  induction k with
  | zero =>
    intro i
    simp only [null_operations.equals_loop, true_iff]
    intro j h1 h2
    omega
  | succ k ih =>
    intro i
    cases he : equals (a.getD i 0) (b.getD i 0) with
    | false =>
      simp only [null_operations.equals_loop, he, Bool.not_false, if_true]
      constructor
      · intro h; exact absurd h (by simp)
      · intro h
        have := h i (Nat.le_refl i) (by omega)
        rw [he] at this
        exact this
    | true =>
      simp only [null_operations.equals_loop, he, Bool.not_true]
      rw [if_neg (by simp), ih (i + 1)]
      constructor
      · intro h j h1 h2
        rcases Nat.eq_or_lt_of_le h1 with e | e
        · rw [← e]; exact he
        · exact h j e (by omega)
      · intro h j h1 h2
        exact h j (by omega) (by omega)

/-- The default array `equals` answers `true` exactly when the scalar `equals` holds at
every index below `size`. -/
theorem null_operations.equals_array_iff (equals : cell → cell → Bool) (a b : List cell)
    (size : Nat) :
    null_operations.equals_array equals a b size = true ↔
      ∀ i, i < size → equals (a.getD i 0) (b.getD i 0) = true := by
  unfold null_operations.equals_array
  rw [null_operations.equals_loop_iff]
  constructor
  · intro h i hi; exact h i (Nat.zero_le i) (by omega)
  · intro h i _ hi; exact h i (by omega)

/-- On buffers of at least `n` bytes, `memcmp` is 0 exactly when the first `n` bytes agree. -/
theorem memcmp_eq_zero_iff :
    ∀ (n : Nat) (xs ys : List Nat), n ≤ xs.length → n ≤ ys.length →
      (memcmp xs ys n = 0 ↔ xs.take n = ys.take n) := by
  intro n
  induction n with
  | zero => intro xs ys _ _; simp [memcmp]
  | succ n ih =>
    intro xs ys hx hy
    cases xs with
    | nil => simp at hx
    | cons x xs =>
      cases ys with
      | nil => simp at hy
      | cons y ys =>
        simp only [List.length_cons, Nat.add_le_add_iff_right] at hx hy
        simp only [memcmp, List.take_succ_cons, List.cons.injEq]
        by_cases h1 : x < y
        · simp only [h1, if_true]
          constructor
          · intro h; exact absurd h (by decide)
          · intro h; omega
        · by_cases h2 : y < x
          · simp only [h1, h2, if_true, if_false]
            constructor
            · intro h; exact absurd h (by decide)
            · intro h; omega
          · simp only [h1, h2, if_false]
            rw [ih xs ys hx hy]
            constructor
            · intro h; exact ⟨by omega, h⟩
            · intro h; exact h.2

/-- A cell occupies four bytes. -/
theorem cell_bytes_length (c : cell) : (cell_bytes c).length = 4 := rfl

/-- An array of cells occupies four bytes per cell. -/
theorem array_bytes_length (a : List cell) : (array_bytes a).length = a.length * 4 := by
  induction a with
  | nil => rfl
  | cons c cs ih =>
    simp only [array_bytes, List.length_append, cell_bytes_length, ih, List.length_cons]
    omega

/-- Two cells with the same bytes are the same cell. -/
theorem cell_bytes_injective (x y : Int) (hx : is_cell x) (hy : is_cell y)
    (h : cell_bytes x = cell_bytes y) : x = y := by
  unfold is_cell cell_min cell_max at hx hy
  simp only [cell_bytes, cell_bits, List.cons.injEq, and_true] at h
  obtain ⟨h0, h1, h2, h3⟩ := h
  omega

/-- Two arrays of cells of the same length with the same bytes are the same array. -/
theorem array_bytes_injective :
    ∀ (a b : List cell), a.length = b.length → (∀ x ∈ a, is_cell x) → (∀ x ∈ b, is_cell x) →
      array_bytes a = array_bytes b → a = b := by
  intro a
  induction a with
  | nil =>
    intro b hl _ _ _
    cases b with
    | nil => rfl
    | cons y ys => simp at hl
  | cons x xs ih =>
    intro b hl ha hb h
    cases b with
    | nil => simp at hl
    | cons y ys =>
      simp only [array_bytes] at h
      have hlen : (cell_bytes x).length = (cell_bytes y).length := by
        rw [cell_bytes_length, cell_bytes_length]
      obtain ⟨h1, h2⟩ := List.append_inj h hlen
      have hxy : x = y :=
        cell_bytes_injective x y (ha x (List.mem_cons_self x xs))
          (hb y (List.mem_cons_self y ys)) h1
      have hrest : xs = ys :=
        ih ys (by simpa using hl) (fun z hz => ha z (List.mem_cons_of_mem x hz))
          (fun z hz => hb z (List.mem_cons_of_mem y hz)) h2
      rw [hxy, hrest]

/-- Two lists of the same length with the same element at every index are the same list. -/
theorem list_eq_of_getD :
    ∀ (a b : List cell), a.length = b.length →
      (∀ i, i < a.length → a.getD i 0 = b.getD i 0) → a = b := by
  intro a
  induction a with
  | nil =>
    intro b hl _
    cases b with
    | nil => rfl
    | cons y ys => simp at hl
  | cons x xs ih =>
    intro b hl h
    cases b with
    | nil => simp at hl
    | cons y ys =>
      have h0 := h 0 (by simp)
      simp only [List.getD_cons_zero] at h0
      have hrest : xs = ys := by
        apply ih ys (by simpa using hl)
        intro i hi
        have := h (i + 1) (by simpa using hi)
        simpa only [List.getD_cons_succ] using this
      rw [h0, hrest]

/-- C9: for two arrays of `n` cells, the integer table's array `equals` (the `memcmp` of the
two byte sequences) answers `true` exactly when its scalar `equals` holds at every index
below `n`, and so agrees with the element-wise array `equals` of the default table. -/
theorem cell_equals_array_fast_path (tag : tag_info) (n : Nat) (a b : List cell)
    (ha : a.length = n) (hb : b.length = n)
    (hca : ∀ x ∈ a, is_cell x) (hcb : ∀ x ∈ b, is_cell x) :
    (cell_operations.equals_array tag a b n = true ↔
      ∀ i, i < n → cell_operations.equals tag (a.getD i 0) (b.getD i 0) = true) ∧
    cell_operations.equals_array tag a b n
      = null_operations.equals_array (cell_operations.equals tag) a b n := by
  have key : cell_operations.equals_array tag a b n = true ↔
      ∀ i, i < n → cell_operations.equals tag (a.getD i 0) (b.getD i 0) = true := by
    have hla : n * 4 ≤ (array_bytes a).length := by rw [array_bytes_length, ha]
    have hlb : n * 4 ≤ (array_bytes b).length := by rw [array_bytes_length, hb]
    have hta : (array_bytes a).take (n * 4) = array_bytes a :=
      List.take_of_length_le (by rw [array_bytes_length, ha])
    have htb : (array_bytes b).take (n * 4) = array_bytes b :=
      List.take_of_length_le (by rw [array_bytes_length, hb])
    simp only [cell_operations.equals_array, cell_operations.equals, beq_iff_eq]
    rw [memcmp_eq_zero_iff (n * 4) _ _ hla hlb, hta, htb]
    constructor
    · intro h i _
      rw [array_bytes_injective a b (by rw [ha, hb]) hca hcb h]
    · intro h
      rw [list_eq_of_getD a b (by rw [ha, hb]) (fun i hi => h i (by omega))]
  refine ⟨key, ?_⟩
  rw [Bool.eq_iff_iff, key, null_operations.equals_array_iff]

/-- C9 at concrete arrays: two arrays of three cells. -/
theorem cell_equals_array_fast_path_witness :
    ([1, -2, 3] : List cell).length = 3 ∧ ([1, -2, 4] : List cell).length = 3 ∧
    cell_operations.equals_array tag_example [1, -2, 3] [1, -2, 4] 3
      = null_operations.equals_array (cell_operations.equals tag_example)
          [1, -2, 3] [1, -2, 4] 3 :=
  ⟨rfl, rfl,
    (cell_equals_array_fast_path tag_example 3 [1, -2, 3] [1, -2, 4] rfl rfl
      (by decide) (by decide)).2⟩

/-- C10 (counterexample): the float table's array `equals` answers `false` on two
one-element arrays holding the same NaN pattern `0x7FC00000`, and `true` on `+0.0` against
`-0.0` (`0x80000000`, the cell `-2^31`), whose bit patterns differ. -/
theorem float_equals_array_not_bitwise :
    float_operations.equals_array tag_example [2143289344] [2143289344] 1 = false ∧
    cell_bits 2143289344 = cell_bits 2143289344 ∧
    float_operations.equals_array tag_example [0] [-2147483648] 1 = true ∧
    cell_bits 0 ≠ cell_bits (-2147483648) := by
  decide

/-- C10 (amended): for two arrays of `n` cells, the float table's array `equals` answers
`true` exactly when the float table's scalar `equals`, the comparison of the floating
values, holds at every index below `n`; that comparison holds for two cells exactly when
neither is a NaN and they have the same bits or are both zeros. -/
theorem float_equals_array_elementwise (tag : tag_info) (n : Nat) (a b : List cell)
    (_ha : a.length = n) (_hb : b.length = n) :
    (float_operations.equals_array tag a b n = true ↔
      ∀ i, i < n → float_operations.equals tag (a.getD i 0) (b.getD i 0) = true) ∧
    (∀ x y : cell, float_operations.equals tag x y = true ↔
      (float_is_nan x = false ∧ float_is_nan y = false ∧
        (cell_bits x = cell_bits y ∨ (float_is_zero x = true ∧ float_is_zero y = true)))) := by
  constructor
  · unfold float_operations.equals_array
    exact null_operations.equals_array_iff _ a b n
  · intro x y
    simp [float_operations.equals, float_eq, and_assoc]

/-- C10 (amended) at concrete arrays: two arrays of two finite floats with the same bits
are equal. -/
theorem float_equals_array_elementwise_witness :
    ([1065353216, 0] : List cell).length = 2 ∧
    float_operations.equals_array tag_example [1065353216, 0] [1065353216, 0] 2 = true :=
  ⟨rfl,
    (float_equals_array_elementwise tag_example 2 [1065353216, 0] [1065353216, 0] rfl
      rfl).1.mpr (by decide)⟩

/-! ## Theorems: rendering -/

/-- Joining a text in front of further texts. -/
theorem comma_joined_cons (t : cell_string) (ts : List cell_string) :
    comma_joined (t :: ts)
      = t ++ (if ts = [] then [] else [char_cell ',', char_cell ' '] ++ comma_joined ts) := by
  cases ts with
  | nil => simp [comma_joined]
  | cons u us => simp [comma_joined]

/-- The loop of the default array `to_string` appends the decimal texts of the `k` cells
from index `i` on, with the separator in front of each but the first of the whole array. -/
theorem null_operations.to_string_loop_spec (tag : tag_info) (arg : List cell) :
    ∀ (k i : Nat) (first : Bool) (str : cell_string), i + k ≤ arg.length →
      null_operations.to_string_loop null_operations.append_string tag arg k i first str
        = str ++ (if first = true ∨ k = 0 then [] else [char_cell ',', char_cell ' '])
            ++ comma_joined (((arg.drop i).take k).map decimal_text) := by
  intro k
  induction k with
  | zero =>
    intro i first str _
    simp [null_operations.to_string_loop, comma_joined]
  | succ k ih =>
    intro i first str h
    have hi : i < arg.length := by omega
    have hd : arg.drop i = arg.getD i 0 :: arg.drop (i + 1) := by
      rw [List.getD_eq_getElem arg 0 hi]
      exact List.drop_eq_getElem_cons hi
    rw [null_operations.to_string_loop, ih (i + 1) false _ (by omega), hd]
    simp only [List.take_succ_cons, List.map_cons, comma_joined_cons]
    cases first <;> cases k
    all_goals
      first
      | (simp [null_operations.append_string, decimal_text, comma_joined]; done)
      | (have hh : ¬ arg.length ≤ i + 1 := by omega
         simp [null_operations.append_string, decimal_text, comma_joined, hh])

/-- C11: for the default table and the integer table with the id `tag_uid`, `to_string` of a
cell is its decimal text when the id of the tag is `tag_uid`, and the name of the tag, a
colon and the decimal text otherwise; `to_string` of an array of `n` cells is the same
optional name and colon, an opening brace, the decimal texts of the cells in index order
joined with `, `, and a closing brace. -/
theorem default_rendering (tag_uid : cell) (tag : tag_info) :
    (∀ v, null_operations.to_string tag_uid null_operations.append_string tag v
        = (if tag.uid = tag_uid then [] else name_colon tag) ++ decimal_text v) ∧
    (∀ v, cell_operations.to_string tag_uid tag v
        = (if tag.uid = tag_uid then [] else name_colon tag) ++ decimal_text v) ∧
    (∀ (arg : List cell) (n : Nat), arg.length = n →
      null_operations.to_string_array tag_uid null_operations.append_string tag arg n
        = (if tag.uid = tag_uid then [] else name_colon tag) ++ [char_cell '\x7b']
            ++ comma_joined (arg.map decimal_text) ++ [char_cell '\x7d']) ∧
    (∀ (arg : List cell) (n : Nat), arg.length = n →
      cell_operations.to_string_array tag_uid tag arg n
        = (if tag.uid = tag_uid then [] else name_colon tag) ++ [char_cell '\x7b']
            ++ comma_joined (arg.map decimal_text) ++ [char_cell '\x7d']) := by
  have hhead : null_operations.to_string_head tag_uid tag
      = (if tag.uid = tag_uid then [] else name_colon tag) := by
    unfold null_operations.to_string_head name_colon
    by_cases h : tag.uid = tag_uid <;> simp [h]
  have hs : ∀ v, null_operations.to_string tag_uid null_operations.append_string tag v
      = (if tag.uid = tag_uid then [] else name_colon tag) ++ decimal_text v := by
    intro v
    simp only [null_operations.to_string, null_operations.append_string, hhead, decimal_text]
  have ha : ∀ (arg : List cell) (n : Nat), arg.length = n →
      null_operations.to_string_array tag_uid null_operations.append_string tag arg n
        = (if tag.uid = tag_uid then [] else name_colon tag) ++ [char_cell '\x7b']
            ++ comma_joined (arg.map decimal_text) ++ [char_cell '\x7d'] := by
    intro arg n hn
    unfold null_operations.to_string_array
    rw [null_operations.to_string_loop_spec tag arg n 0 true _ (by omega), hhead]
    simp [← hn]
  exact ⟨hs, hs, ha, ha⟩

/-- C11 at concrete inputs: the array `[1, -2, 3]` under a tag named `T` other than the one
of the table, and the empty array under the tag of the table. -/
theorem default_rendering_witness :
    ([1, -2, 3] : List cell).length = 3 ∧
    null_operations.to_string_array 0 null_operations.append_string tag_example [1, -2, 3] 3
      = strings.convert "T:\x7b1, -2, 3\x7d" ∧
    null_operations.to_string_array 100 null_operations.append_string tag_example [] 0
      = strings.convert "\x7b\x7d" :=
  ⟨rfl,
    ((default_rendering 0 tag_example).2.2.1 [1, -2, 3] 3 rfl).trans (by decide),
    ((default_rendering 100 tag_example).2.2.1 [] 0 rfl).trans (by decide)⟩

/-- C12: under the bool tag itself, the bool table renders the cell 1 as `true`, the cell 0
as `false` and any other cell as `bool:` and its decimal text; under a tag with another
id it renders the name of that tag, a colon, and `true`, `false` or the bare decimal
text. -/
theorem bool_rendering (ids : tags) (tag : tag_info) (v : cell) :
    (tag.uid = ids.tag_bool →
      bool_operations.to_string ids tag v
        = if v = 1 then strings.convert "true"
          else if v = 0 then strings.convert "false"
          else strings.convert "bool:" ++ decimal_text v) ∧
    (tag.uid ≠ ids.tag_bool →
      bool_operations.to_string ids tag v
        = name_colon tag ++
          (if v = 1 then strings.convert "true"
            else if v = 0 then strings.convert "false"
            else decimal_text v)) := by
  constructor
  · intro h
    unfold bool_operations.to_string null_operations.to_string
      null_operations.to_string_head bool_operations.append_string decimal_text
    by_cases h1 : v = 1
    · simp [h, h1]
    · by_cases h0 : v = 0
      · simp [h, h0]
      · simp [h, h1, h0]
  · intro h
    unfold bool_operations.to_string null_operations.to_string
      null_operations.to_string_head bool_operations.append_string decimal_text name_colon
    by_cases h1 : v = 1
    · simp [h, h1]
    · by_cases h0 : v = 0
      · simp [h, h0]
      · simp [h, h1, h0]

/-- C12 at concrete inputs: the cell 2 under the bool tag and under the user tag `T`. -/
theorem bool_rendering_witness :
    bool_operations.to_string ids_example ⟨2, "bool", none⟩ 2 = strings.convert "bool:2" ∧
    bool_operations.to_string ids_example tag_example 2 = strings.convert "T:2" ∧
    bool_operations.to_string ids_example tag_example 1 = strings.convert "T:true" :=
  ⟨((bool_rendering ids_example ⟨2, "bool", none⟩ 2).1 rfl).trans (by decide),
    ((bool_rendering ids_example tag_example 2).2 (by decide)).trans (by decide),
    ((bool_rendering ids_example tag_example 1).2 (by decide)).trans (by decide)⟩

/-! ## Theorems: the string table -/

/-- In a well-formed pool a valid handle is not null and is not the next address. -/
theorem object_pool.valid_ne {T : Type} (p : object_pool T) (hwf : p.wf) (h : Int)
    (hv : p.valid h = true) : h ≠ 0 ∧ h ≠ p.next := by
  have := hwf.2 h hv
  constructor <;> omega

/-- In a well-formed pool the next address is not valid. -/
theorem object_pool.next_free {T : Type} (p : object_pool T) (hwf : p.wf) :
    p.objects p.next = none := by
  cases h : p.objects p.next with
  | none => rfl
  | some v =>
    have := hwf.2 p.next (by simp [h])
    omega

/-- An `add` keeps a pool well-formed. -/
theorem object_pool.add_wf {T : Type} (p : object_pool T) (hwf : p.wf) (v : T) :
    (p.add v).2.wf := by
  constructor
  · have := hwf.1
    show 0 < p.next + 1
    omega
  · intro h hh
    show 0 < h ∧ h < p.next + 1
    by_cases e : h = p.next
    · have := hwf.1
      omega
    · have : (p.objects h).isSome = true := by
        simpa [object_pool.add, umap.assign, e] using hh
      have := hwf.2 h this
      omega

/-- On null or valid handles, `string_operations::add` pools the content of the first
followed by the content of the second, at the next address. -/
theorem string_operations.add_eq (w : pools) (tag : tag_info) (a b : cell)
    (hwf : w.strings.wf)
    (ha : a = 0 ∨ w.strings.valid a = true) (hb : b = 0 ∨ w.strings.valid b = true) :
    string_operations.add w tag a b
      = (w.strings.next,
          { w with strings := (w.strings.add (string_content w a ++ string_content w b)).2 }) := by
  have h0 : w.strings.valid 0 = false := by
    cases h : w.strings.valid 0 with
    | false => rfl
    | true => exact absurd rfl (object_pool.valid_ne w.strings hwf 0 h).1
  rcases ha with rfl | ha <;> rcases hb with rfl | hb
  · simp [string_operations.add, object_pool.get_by_id, object_pool.get_id, object_pool.add,
      string_content, h0]
  · have hb0 : b ≠ 0 := (object_pool.valid_ne w.strings hwf b hb).1
    simp [string_operations.add, object_pool.get_by_id, object_pool.get_id, object_pool.add,
      string_content, h0, hb, hb0]
  · have ha0 : a ≠ 0 := (object_pool.valid_ne w.strings hwf a ha).1
    simp [string_operations.add, object_pool.get_by_id, object_pool.get_id, object_pool.add,
      string_content, h0, ha, ha0]
  · have ha0 : a ≠ 0 := (object_pool.valid_ne w.strings hwf a ha).1
    have hb0 : b ≠ 0 := (object_pool.valid_ne w.strings hwf b hb).1
    simp [string_operations.add, object_pool.get_by_id, object_pool.get_id, object_pool.add,
      string_content, ha, hb, ha0, hb0]

/-- C13: in a well-formed string pool, for handles `a`, `b` that are each null or valid, the
string table's `add` returns a handle that is not null, was not valid before and is valid
afterwards, whose content is the content of `a` followed by the content of `b` (null read
as the empty string); every entry that was in the pool, those of `a` and `b` included,
is still there with the same content, the other pools are as they were, and `mod` is the
same function. -/
theorem string_concatenation (w : pools) (tag : tag_info) (a b : cell)
    (hwf : w.strings.wf)
    (ha : a = 0 ∨ w.strings.valid a = true) (hb : b = 0 ∨ w.strings.valid b = true) :
    (string_operations.add w tag a b).1 ≠ 0 ∧
    w.strings.valid (string_operations.add w tag a b).1 = false ∧
    (string_operations.add w tag a b).2.strings.valid (string_operations.add w tag a b).1
      = true ∧
    string_content (string_operations.add w tag a b).2 (string_operations.add w tag a b).1
      = string_content w a ++ string_content w b ∧
    (∀ h, w.strings.valid h = true →
      (string_operations.add w tag a b).2.strings.objects h = w.strings.objects h) ∧
    (string_operations.add w tag a b).2.variants = w.variants ∧
    (string_operations.add w tag a b).2.list_pool = w.list_pool ∧
    (string_operations.add w tag a b).2.map_pool = w.map_pool ∧
    (string_operations.add w tag a b).2.iter_pool = w.iter_pool ∧
    (string_operations.add w tag a b).2.tasks = w.tasks ∧
    string_operations.mod w tag a b = string_operations.add w tag a b := by
  rw [string_operations.add_eq w tag a b hwf ha hb]
  have hn := hwf.1
  have hfree := object_pool.next_free w.strings hwf
  refine ⟨by show (w.strings.next : Int) ≠ 0; omega, ?_, ?_, ?_, ?_, rfl, rfl, rfl, rfl, rfl,
    by unfold string_operations.mod; exact string_operations.add_eq w tag a b hwf ha hb⟩
  · simp [object_pool.valid, hfree]
  · simp [object_pool.valid, object_pool.add, umap.assign]
  · have : w.strings.next ≠ 0 := by omega
    simp [string_content, object_pool.add, umap.assign, this]
  · intro h hv
    have hne := (object_pool.valid_ne w.strings hwf h hv).2
    simp [object_pool.add, umap.assign, hne]

/-- The string pool of `pools_example` is well-formed. -/
theorem pools_example_strings_wf : pools_example.strings.wf := by
  refine ⟨by decide, ?_⟩
  intro h hh
  by_cases e : h = 1
  · subst e; decide
  · simp [pools_example, umap.assign, umap.empty, e] at hh

/-- C13 at concrete handles: in `pools_example`, `ab` with the null handle gives a handle
that is not null, and `ab` with itself gives `abab`. -/
theorem string_concatenation_witness :
    pools_example.strings.wf ∧
    (string_operations.add pools_example tag_example 1 0).1 ≠ 0 ∧
    string_content (string_operations.add pools_example tag_example 1 1).2
        (string_operations.add pools_example tag_example 1 1).1
      = string_content pools_example 1 ++ string_content pools_example 1 :=
  ⟨pools_example_strings_wf,
    (string_concatenation pools_example tag_example 1 0 pools_example_strings_wf
      (Or.inr rfl) (Or.inl rfl)).1,
    (string_concatenation pools_example tag_example 1 1 pools_example_strings_wf
      (Or.inr rfl) (Or.inr rfl)).2.2.2.1⟩

/-- C14: for handles `a`, `b` that are each null or valid in the string pool, the string
table's `equals` is `true` exactly when the contents are the same cell sequence, the null
handle read as the empty string; when a handle is neither null nor valid, it is `false`. -/
theorem string_equality (w : pools) (tag : tag_info) (a b : cell) :
    ((a = 0 ∨ w.strings.valid a = true) → (b = 0 ∨ w.strings.valid b = true) →
      (string_operations.equals w tag a b = true ↔ string_content w a = string_content w b)) ∧
    ((a ≠ 0 ∧ w.strings.valid a = false) ∨ (b ≠ 0 ∧ w.strings.valid b = false) →
      string_operations.equals w tag a b = false) := by
  constructor
  · intro ha hb
    by_cases ha0 : a = 0 <;> by_cases hb0 : b = 0
    · simp [string_operations.equals, object_pool.get_by_id, string_content, ha0, hb0]
    · have hvb : w.strings.valid b = true := by
        rcases hb with h | h
        · exact absurd h hb0
        · exact h
      simp [string_operations.equals, object_pool.get_by_id, string_content, ha0, hb0, hvb]
    · have hva : w.strings.valid a = true := by
        rcases ha with h | h
        · exact absurd h ha0
        · exact h
      simp [string_operations.equals, object_pool.get_by_id, string_content, ha0, hb0, hva]
    · have hva : w.strings.valid a = true := by
        rcases ha with h | h
        · exact absurd h ha0
        · exact h
      have hvb : w.strings.valid b = true := by
        rcases hb with h | h
        · exact absurd h hb0
        · exact h
      simp [string_operations.equals, object_pool.get_by_id, string_content, ha0, hb0, hva,
        hvb]
  · intro h
    rcases h with ⟨h0, hv⟩ | ⟨h0, hv⟩
    · simp [string_operations.equals, object_pool.get_by_id, h0, hv]
    · by_cases hc : (!(w.strings.get_by_id a).1 && (w.strings.get_by_id a).2 != 0) = true
      · simp [string_operations.equals, hc]
      · simp only [string_operations.equals, hc]
        simp [object_pool.get_by_id, h0, hv]

/-- C14 at concrete handles: in `pools_example` the null handle and the string `ab` at
handle 1 are null or valid, and the handle 7 is neither. -/
theorem string_equality_witness :
    (string_operations.equals pools_example tag_example 0 1 = true ↔
      string_content pools_example 0 = string_content pools_example 1) ∧
    string_operations.equals pools_example tag_example 1 7 = false :=
  ⟨(string_equality pools_example tag_example 0 1).1 (Or.inl rfl) (Or.inr rfl),
    (string_equality pools_example tag_example 1 7).2 (Or.inr ⟨by decide, rfl⟩)⟩

/-! ## Theorems: the variant table -/

/-- A `remove` of a valid handle answers `true` and erases the entry. -/
theorem object_pool.remove_valid {T : Type} (p : object_pool T) (h : Int)
    (hv : p.valid h = true) : p.remove h = (true, ⟨p.objects.erase h, p.next⟩) := by
  unfold object_pool.remove
  cases hc : p.objects h with
  | none => simp [object_pool.valid, hc] at hv
  | some v => rfl

/-- Being within is transitive. -/
theorem pools.sub_trans (w2 w1 w0 : pools) (h21 : pools.sub w2 w1) (h10 : pools.sub w1 w0) :
    pools.sub w2 w0 :=
  ⟨fun h v e => h10.1 h v (h21.1 h v e), fun h v e => h10.2.1 h v (h21.2.1 h v e),
    fun h v e => h10.2.2.1 h v (h21.2.2.1 h v e), fun h v e => h10.2.2.2 h v (h21.2.2.2 h v e)⟩

/-- One run after another, both within `w0`, is a run within `w0`. -/
theorem frees_within_seq (w0 : pools) (L : Int) (esL : list_t)
    (run1 run2 : pools → Option pools)
    (h1 : frees_within w0 L esL run1) (h2 : frees_within w0 L esL run2) :
    frees_within w0 L esL
      (fun w => match run1 w with
        | none => none
        | some w1 => run2 w1) := by
  intro w hw
  obtain ⟨w1, hr1, hs1, hl1⟩ := h1 w hw
  obtain ⟨w2, hr2, hs2, hl2⟩ := h2 w1 (pools.sub_trans w1 w w0 hs1 hw)
  refine ⟨w2, ?_, pools.sub_trans w2 w1 w hs2 hs1, fun h => hl2 (hl1 h)⟩
  simp only [hr1, hr2]

/-- C16: for each pooled table (string, variant, list, map, iterator) and every handle that
is not valid in the pool of the table, `del` and `free` return `false`, `copy` and `clone`
return 0, and all pools are left exactly as they were; the deep free and the deep clone of
boxed values are not called. -/
theorem invalid_handles_neutral (obj_free : dyn_object → pools → Option pools)
    (obj_clone : dyn_object → pools → Option (dyn_object × pools)) (w : pools)
    (tag : tag_info) (h : cell) :
    (w.strings.valid h = false →
      string_operations.del w tag h = (false, w) ∧ string_operations.free w tag h = (false, w) ∧
      string_operations.copy w tag h = (0, w) ∧ string_operations.clone w tag h = (0, w)) ∧
    (w.variants.valid h = false →
      variant_operations.del w tag h = (false, w) ∧
      variant_operations.free obj_free w tag h = some (false, w) ∧
      variant_operations.copy w tag h = (0, w) ∧
      variant_operations.clone obj_clone w tag h = some (0, w)) ∧
    (w.list_pool.valid h = false →
      list_operations.del w tag h = (false, w) ∧
      list_operations.free obj_free w tag h = some (false, w) ∧
      list_operations.copy w tag h = (0, w) ∧
      list_operations.clone obj_clone w tag h = some (0, w)) ∧
    (w.map_pool.valid h = false →
      map_operations.del w tag h = (false, w) ∧
      map_operations.free obj_free w tag h = some (false, w) ∧
      map_operations.copy w tag h = (0, w) ∧
      map_operations.clone obj_clone w tag h = some (0, w)) ∧
    (w.iter_pool.valid h = false →
      iter_operations.del w tag h = (false, w) ∧ iter_operations.free w tag h = (false, w) ∧
      iter_operations.copy w tag h = (0, w) ∧ iter_operations.clone w tag h = (0, w)) := by
  refine ⟨?_, ?_, ?_, ?_, ?_⟩ <;> intro hv
  · simp [string_operations.del, string_operations.free, string_operations.copy,
      string_operations.clone, object_pool.get_by_id, hv]
  · simp [variant_operations.del, variant_operations.free, variant_operations.copy,
      variant_operations.clone, object_pool.get_by_id, hv]
  · simp [list_operations.del, list_operations.free, list_operations.copy,
      list_operations.clone, object_pool.get_by_id, hv]
  · simp [map_operations.del, map_operations.free, map_operations.copy,
      map_operations.clone, object_pool.get_by_id, hv]
  · simp [iter_operations.del, iter_operations.free, iter_operations.copy,
      iter_operations.clone, object_pool.get_by_id, hv]

/-- C16 at a concrete handle: 9 is valid in no pool of `pools_example`. -/
theorem invalid_handles_neutral_witness :
    pools_example.strings.valid 9 = false ∧ pools_example.list_pool.valid 9 = false ∧
    string_operations.copy pools_example tag_example 9 = (0, pools_example) ∧
    list_operations.free (fun _ _ => none) pools_example tag_example 9
      = some (false, pools_example) :=
  ⟨rfl, rfl,
    ((invalid_handles_neutral (fun _ _ => none) (fun _ _ => none) pools_example tag_example
      9).1 rfl).2.2.1,
    ((invalid_handles_neutral (fun _ _ => none) (fun _ _ => none) pools_example tag_example
      9).2.2.1 rfl).2.1⟩

/-- The `copy` of the string, variant, list, map and iterator tables on a valid handle of a
well-formed pool keeps every entry the pool had, the one of the argument included, and
returns a handle that was not valid before. -/
theorem pooled_copy_keeps_argument (w : pools) (tag : tag_info) (h : cell) :
    (w.strings.wf → w.strings.valid h = true →
      (∀ k, w.strings.valid k = true →
        (string_operations.copy w tag h).2.strings.objects k = w.strings.objects k) ∧
      w.strings.valid (string_operations.copy w tag h).1 = false) ∧
    (w.variants.wf → w.variants.valid h = true →
      (∀ k, w.variants.valid k = true →
        (variant_operations.copy w tag h).2.variants.objects k = w.variants.objects k) ∧
      w.variants.valid (variant_operations.copy w tag h).1 = false) ∧
    (w.list_pool.wf → w.list_pool.valid h = true →
      (∀ k, w.list_pool.valid k = true →
        (list_operations.copy w tag h).2.list_pool.objects k = w.list_pool.objects k) ∧
      w.list_pool.valid (list_operations.copy w tag h).1 = false) ∧
    (w.map_pool.wf → w.map_pool.valid h = true →
      (∀ k, w.map_pool.valid k = true →
        (map_operations.copy w tag h).2.map_pool.objects k = w.map_pool.objects k) ∧
      w.map_pool.valid (map_operations.copy w tag h).1 = false) ∧
    (w.iter_pool.wf → w.iter_pool.valid h = true →
      (∀ k, w.iter_pool.valid k = true →
        (iter_operations.copy w tag h).2.iter_pool.objects k = w.iter_pool.objects k) ∧
      w.iter_pool.valid (iter_operations.copy w tag h).1 = false) := by
  refine ⟨?_, ?_, ?_, ?_, ?_⟩ <;> intro hwf hv
  · have hfree := object_pool.next_free _ hwf
    refine ⟨fun k hk => ?_, ?_⟩
    · have hne := (object_pool.valid_ne _ hwf k hk).2
      simp [string_operations.copy, object_pool.get_by_id, object_pool.clone,
        object_pool.add, umap.assign, hv, hne]
    · simp [string_operations.copy, object_pool.get_by_id, object_pool.clone,
        object_pool.add, object_pool.get_id, object_pool.valid, hfree,
        show (w.strings.objects h).isSome = true from hv]
  · have hfree := object_pool.next_free _ hwf
    refine ⟨fun k hk => ?_, ?_⟩
    · have hne := (object_pool.valid_ne _ hwf k hk).2
      simp [variant_operations.copy, object_pool.get_by_id, object_pool.clone,
        object_pool.add, umap.assign, hv, hne]
    · simp [variant_operations.copy, object_pool.get_by_id, object_pool.clone,
        object_pool.add, object_pool.get_id, object_pool.valid, hfree,
        show (w.variants.objects h).isSome = true from hv]
  · have hfree := object_pool.next_free _ hwf
    refine ⟨fun k hk => ?_, ?_⟩
    · have hne := (object_pool.valid_ne _ hwf k hk).2
      simp [list_operations.copy, object_pool.get_by_id, object_pool.add, umap.assign, hv,
        hne]
    · simp [list_operations.copy, object_pool.get_by_id, object_pool.add,
        object_pool.get_id, object_pool.valid, hfree,
        show (w.list_pool.objects h).isSome = true from hv]
  · have hfree := object_pool.next_free _ hwf
    refine ⟨fun k hk => ?_, ?_⟩
    · have hne := (object_pool.valid_ne _ hwf k hk).2
      simp [map_operations.copy, object_pool.get_by_id, object_pool.add, umap.assign, hv,
        hne]
    · simp [map_operations.copy, object_pool.get_by_id, object_pool.add,
        object_pool.get_id, object_pool.valid, hfree,
        show (w.map_pool.objects h).isSome = true from hv]
  · have hfree := object_pool.next_free _ hwf
    refine ⟨fun k hk => ?_, ?_⟩
    · have hne := (object_pool.valid_ne _ hwf k hk).2
      simp [iter_operations.copy, object_pool.get_by_id, object_pool.clone,
        object_pool.add, umap.assign, hv, hne]
    · simp [iter_operations.copy, object_pool.get_by_id, object_pool.clone,
        object_pool.add, object_pool.get_id, object_pool.valid, hfree,
        show (w.iter_pool.objects h).isSome = true from hv]

/-- The `copy` and `clone` of the task table on a valid handle remove the task and return
the answer of the removal. -/
theorem task_operations.copy_removes (w : pools) (tag : tag_info) (h : cell)
    (hv : w.tasks.valid h = true) :
    task_operations.copy w tag h
      = (1, { w with tasks := ⟨w.tasks.objects.erase h, w.tasks.next⟩ }) ∧
    task_operations.clone w tag h = task_operations.copy w tag h ∧
    (task_operations.copy w tag h).2.tasks.valid h = false := by
  have h1 : task_operations.copy w tag h
      = (1, { w with tasks := ⟨w.tasks.objects.erase h, w.tasks.next⟩ }) := by
    simp only [task_operations.copy, object_pool.get_by_id, hv, if_true,
      object_pool.remove_valid w.tasks h hv]
  refine ⟨h1, rfl, ?_⟩
  rw [h1]
  simp [object_pool.valid, umap.erase]

/-- C20 (the code at the failing input): in `pools_example` the task handle 1 is valid;
`copy` of the task table on it returns 1 and the handle is no longer valid afterwards, and
`clone` does the same. -/
theorem task_copy_consumes :
    pools_example.tasks.valid 1 = true ∧
    (task_operations.copy pools_example tag_example 1).1 = 1 ∧
    (task_operations.copy pools_example tag_example 1).2.tasks.valid 1 = false ∧
    (task_operations.clone pools_example tag_example 1).2.tasks.valid 1 = false :=
  ⟨rfl, rfl, rfl, rfl⟩

/-! ## Theorems: the reference table -/

/-- Dropping a name and one more character from the name, a separator and a rest leaves
the rest. -/
theorem name_drop_base (base : String) (sep : Char) (rest : String) :
    String.mk ((base ++ String.singleton sep ++ rest).data.drop (base.length + 1)) = rest ∧
    base.length + 1 ≤ (base ++ String.singleton sep ++ rest).length := by
  cases base with
  | mk bl =>
    cases rest with
    | mk rl =>
      have h : ((String.mk bl) ++ String.singleton sep ++ (String.mk rl)).data
          = (bl ++ [sep]) ++ rl := by
        simp only [String.data_append, String.singleton]
        rfl
      have hl : (String.mk bl).length + 1 = (bl ++ [sep]).length := by
        simp [String.length]
      constructor
      · rw [h, hl, List.drop_left]
      · have h3 : ((String.mk bl) ++ String.singleton sep ++ (String.mk rl)).length
            = ((bl ++ [sep]) ++ rl).length := by
          rw [← h]; rfl
        rw [h3, hl, List.length_append (bl ++ [sep]) rl]
        exact Nat.le_add_right _ _

/-- C18: for a tag other than the reference tag that inherits from it and whose name is the
name of the reference tag, one separator character and a name `S`, the reference table
appends to the text exactly what the `to_string` of the table that `get_ops` resolves for
the tag named `S` returns for the cell under that tag; for the reference tag itself and
for a tag that does not inherit from it, it appends the decimal text of the cell. -/
theorem ref_rendering (ids : tags) (mem : tag_memory) (m : op_map_t)
    (registry : tag_registry) (to_string_of : cell → tag_ptr → cell → Option cell_string)
    (gfuel fuel : Nat) (tag : tag_ptr) (v : cell) (str : cell_string) :
    (∀ (sep : Char) (S : String) (subtag : tag_ptr) (key : cell) (text : cell_string),
      tag ≠ registry.find_tag ids.tag_ref →
      tag_info.inherits_from mem fuel tag (registry.find_tag ids.tag_ref) = some true →
      (mem tag).name = (mem (registry.find_tag ids.tag_ref)).name ++ String.singleton sep ++ S →
      registry.find_tag_name S = some subtag →
      tag_info.get_ops ids mem m gfuel subtag = some key →
      to_string_of key subtag v = some text →
      ref_operations.append_string ids mem m registry to_string_of gfuel fuel tag v str
        = some (str ++ text)) ∧
    (tag = registry.find_tag ids.tag_ref →
      ref_operations.append_string ids mem m registry to_string_of gfuel fuel tag v str
        = some (str ++ decimal_text v)) ∧
    (tag_info.inherits_from mem fuel tag (registry.find_tag ids.tag_ref) = some false →
      ref_operations.append_string ids mem m registry to_string_of gfuel fuel tag v str
        = some (str ++ decimal_text v)) := by
  refine ⟨?_, ?_, ?_⟩
  · intro sep S subtag key text hne hinh hname hfind hops htext
    obtain ⟨hdrop, hlen⟩ := name_drop_base (mem (registry.find_tag ids.tag_ref)).name sep S
    rw [← hname] at hdrop hlen
    simp only [ref_operations.append_string, hne, ne_eq, not_false_eq_true, if_true, hinh,
      hlen, hdrop, hfind, hops, htext]
  · intro heq
    simp [ref_operations.append_string, heq, null_operations.append_string, decimal_text]
  · intro hinh
    by_cases hne : tag = registry.find_tag ids.tag_ref
    · simp [ref_operations.append_string, hne, null_operations.append_string, decimal_text]
    · simp [ref_operations.append_string, hne, hinh, null_operations.append_string,
        decimal_text]

/-- C18 at concrete tags: the tag `Ref@Str` at address 5 derives from the reference tag
`Ref` at address 4; its rendering is the one of the table of the tag `Str`, and the
rendering under the reference tag itself is the decimal text. -/
theorem ref_rendering_witness :
    ref_operations.append_string ids_example mem_ref_example (op_map ids_example)
        registry_example (fun _ _ _ => some [120]) 1 2 5 7 [] = some ([] ++ [120]) ∧
    ref_operations.append_string ids_example mem_ref_example (op_map ids_example)
        registry_example (fun _ _ _ => some [120]) 1 2 4 7 [] = some ([] ++ decimal_text 7) :=
  ⟨(ref_rendering ids_example mem_ref_example (op_map ids_example) registry_example
      (fun _ _ _ => some [120]) 1 2 5 7 []).1 '@' "Str" 2 5 [120] (by decide) rfl rfl rfl rfl
      rfl,
    (ref_rendering ids_example mem_ref_example (op_map ids_example) registry_example
      (fun _ _ _ => some [120]) 1 2 4 7 []).2.1 rfl⟩

/-! ## Theorems: dispatch of a registered override -/

/-- C19: for an operation kind with the registered handler `h`, whose stored extra
arguments `h._args` are `e1 .. en` in declaration order.  When the script instance is
valid, the entry point is found and the execution succeeds on the pushes `b`, `a`,
`en`, ..., `e1` (for a unary operation `a`, `en`, ..., `e1`), the operation returns the
result cell of the callback; when the instance is not valid, when the entry point is not
found, and when the execution fails, it returns 0. -/
theorem override_dispatch (host : script_host) (d : dynamic_operations) (tag : tag_info)
    (op : op_type) (h : op_handler) (a b : cell) (hreg : d.dyn_ops op = some h) :
    (∀ pub ret, host.valid h._amx = true → host.find_public h._amx h._handler = some pub →
      host.exec h._amx pub
          (pushed.value b :: pushed.value a ::
            h._args.reverse.map (fun p => pushed.param p h._type)) = some ret →
      d.op_bin host tag op a b = ret) ∧
    (∀ pub ret, host.valid h._amx = true → host.find_public h._amx h._handler = some pub →
      host.exec h._amx pub
          (pushed.value a :: h._args.reverse.map (fun p => pushed.param p h._type))
        = some ret →
      d.op_un host tag op a = ret) ∧
    (host.valid h._amx = false →
      d.op_bin host tag op a b = 0 ∧ d.op_un host tag op a = 0) ∧
    (host.find_public h._amx h._handler = none →
      d.op_bin host tag op a b = 0 ∧ d.op_un host tag op a = 0) ∧
    (∀ pub, host.find_public h._amx h._handler = some pub →
      host.exec h._amx pub
          (pushed.value b :: pushed.value a ::
            h._args.reverse.map (fun p => pushed.param p h._type)) = none →
      d.op_bin host tag op a b = 0) ∧
    (∀ pub, host.find_public h._amx h._handler = some pub →
      host.exec h._amx pub
          (pushed.value a :: h._args.reverse.map (fun p => pushed.param p h._type)) = none →
      d.op_un host tag op a = 0) := by
  refine ⟨?_, ?_, ?_, ?_, ?_, ?_⟩
  · intro pub ret hv hf he
    simp only [dynamic_operations.op_bin, hreg, op_handler.invoke, hv, if_true, hf,
      List.cons_append, List.nil_append, he]
  · intro pub ret hv hf he
    simp only [dynamic_operations.op_un, hreg, op_handler.invoke_unary, hv, if_true, hf,
      List.cons_append, List.nil_append, he]
  · intro hv
    simp [dynamic_operations.op_bin, dynamic_operations.op_un, hreg, op_handler.invoke,
      op_handler.invoke_unary, hv]
  · intro hf
    simp [dynamic_operations.op_bin, dynamic_operations.op_un, hreg, op_handler.invoke,
      op_handler.invoke_unary, hf]
  · intro pub hf he
    simp only [dynamic_operations.op_bin, hreg, op_handler.invoke, hf,
      List.cons_append, List.nil_append, he]
    split <;> rfl
  · intro pub hf he
    simp only [dynamic_operations.op_un, hreg, op_handler.invoke_unary, hf,
      List.cons_append, List.nil_append, he]
    split <;> rfl

/-- C19 at a concrete table: a handler for `add` with the stored arguments `e1`, `e2`; the
host of the example returns the number of pushes, which is 4 for the pushes `b`, `a`,
`e2`, `e1`. -/
theorem override_dispatch_witness :
    ({ tag_uid := 100, _locked := false,
        dyn_ops := umap.empty.assign op_type.add ⟨op_type.add, 7, [⟨1⟩, ⟨2⟩], "OnAdd"⟩ }
      : dynamic_operations).op_bin host_example tag_example op_type.add 10 20 = 4 :=
  (override_dispatch host_example
      { tag_uid := 100, _locked := false,
        dyn_ops := umap.empty.assign op_type.add ⟨op_type.add, 7, [⟨1⟩, ⟨2⟩], "OnAdd"⟩ }
      tag_example op_type.add ⟨op_type.add, 7, [⟨1⟩, ⟨2⟩], "OnAdd"⟩ 10 20 rfl).1 0 4 rfl rfl rfl

/-! ## Theorems: the string hash -/

/-- On a null or valid handle, with the null handle not valid, the string hash is the fold
of `hash_combine` from the seed 0 over the content, null read as the empty string. -/
theorem string_operations.hash_eq_fold (size_bits : Nat) (w : pools) (tag : tag_info)
    (a : cell) (h0 : w.strings.valid 0 = false) (ha : a = 0 ∨ w.strings.valid a = true) :
    string_operations.hash (std_hash_identity size_bits) size_bits w tag a
      = (string_content w a).foldl (hash_combine (std_hash_identity size_bits) size_bits) 0 := by
  by_cases ha0 : a = 0
  · subst ha0
    simp [string_operations.hash, object_pool.get_by_id, h0, string_content,
      null_operations.hash, std_hash_identity]
  · have hv : w.strings.valid a = true := by
      rcases ha with h | h
      · exact absurd h ha0
      · exact h
    simp [string_operations.hash, object_pool.get_by_id, hv, string_content, ha0]

/-- Two null or valid handles that the string `equals` finds equal have the same content. -/
theorem string_operations.equals_content (w : pools) (tag : tag_info) (a b : cell)
    (ha : a = 0 ∨ w.strings.valid a = true) (hb : b = 0 ∨ w.strings.valid b = true)
    (heq : string_operations.equals w tag a b = true) :
    string_content w a = string_content w b := by
  by_cases ha0 : a = 0 <;> by_cases hb0 : b = 0
  · simp [string_content, ha0, hb0]
  · have hvb : w.strings.valid b = true := by
      rcases hb with h | h
      · exact absurd h hb0
      · exact h
    simp [string_operations.equals, object_pool.get_by_id, ha0, hb0, hvb] at heq
    simp [string_content, ha0, hb0, heq]
  · have hva : w.strings.valid a = true := by
      rcases ha with h | h
      · exact absurd h ha0
      · exact h
    simp [string_operations.equals, object_pool.get_by_id, ha0, hb0, hva] at heq
    simp [string_content, ha0, hb0, heq]
  · have hva : w.strings.valid a = true := by
      rcases ha with h | h
      · exact absurd h ha0
      · exact h
    have hvb : w.strings.valid b = true := by
      rcases hb with h | h
      · exact absurd h hb0
      · exact h
    simp [string_operations.equals, object_pool.get_by_id, ha0, hb0, hva, hvb] at heq
    simp [string_content, ha0, hb0, heq]

/-- C21: with `std::hash` of a cell the identity on its value and the null handle not a
valid handle, for handles `a`, `b` that are each null or valid in the string pool and that
the string table's `equals` finds equal, the string table's `hash` of `a` and of `b` are
the same; the `hash` of a valid handle is the fold of `hash_combine` over its characters
from the seed 0, and the `hash` of the null handle is the default hash of the cell 0,
which is 0. -/
theorem string_hash_consistent (size_bits : Nat) (w : pools) (tag : tag_info) (a b : cell)
    (h0 : w.strings.valid 0 = false)
    (ha : a = 0 ∨ w.strings.valid a = true) (hb : b = 0 ∨ w.strings.valid b = true)
    (heq : string_operations.equals w tag a b = true) :
    string_operations.hash (std_hash_identity size_bits) size_bits w tag a
      = string_operations.hash (std_hash_identity size_bits) size_bits w tag b ∧
    (w.strings.valid a = true →
      string_operations.hash (std_hash_identity size_bits) size_bits w tag a
        = ((w.strings.objects a).getD []).foldl
            (hash_combine (std_hash_identity size_bits) size_bits) 0) ∧
    string_operations.hash (std_hash_identity size_bits) size_bits w tag 0
      = null_operations.hash (std_hash_identity size_bits) tag 0 ∧
    null_operations.hash (std_hash_identity size_bits) tag 0 = 0 := by
  have hcontent : string_content w a = string_content w b :=
    string_operations.equals_content w tag a b ha hb heq
  refine ⟨?_, ?_, ?_, ?_⟩
  · rw [string_operations.hash_eq_fold size_bits w tag a h0 ha,
      string_operations.hash_eq_fold size_bits w tag b h0 hb, hcontent]
  · intro hv
    simp [string_operations.hash, object_pool.get_by_id, hv]
  · simp [string_operations.hash, object_pool.get_by_id, h0]
  · simp [null_operations.hash, std_hash_identity]

/-- C21 at concrete handles: in `pools_example` the null handle is not valid, the string at
handle 1 is, and the string table finds the handle 1 equal to itself. -/
theorem string_hash_consistent_witness :
    pools_example.strings.valid 0 = false ∧
    string_operations.equals pools_example tag_example 1 1 = true ∧
    string_operations.hash (std_hash_identity 32) 32 pools_example tag_example 1
      = ([97, 98] : List cell).foldl (hash_combine (std_hash_identity 32) 32) 0 ∧
    string_operations.hash (std_hash_identity 32) 32 pools_example tag_example 0 = 0 :=
  ⟨rfl, by decide,
    (string_hash_consistent 32 pools_example tag_example 1 1 rfl (Or.inr rfl) (Or.inr rfl)
      (by decide)).2.1 rfl,
    ((string_hash_consistent 32 pools_example tag_example 1 1 rfl (Or.inr rfl) (Or.inr rfl)
      (by decide)).2.2.1).trans
      (string_hash_consistent 32 pools_example tag_example 1 1 rfl (Or.inr rfl) (Or.inr rfl)
        (by decide)).2.2.2⟩

/-! ## Theorems: `get_control` -/

/-- The initial `op_map` is the insertion of the built-in pairs, one after the other. -/
theorem op_map_eq_foldl (ids : tags) :
    op_map ids = (builtin_tables ids).foldl (fun m kv => m.insert kv.1 kv.2) umap.empty :=
  rfl

/-- After an `insert` the key holds a table. -/
theorem umap.insert_has {K V : Type} [DecidableEq K] (m : umap K V) (k : K) (v : V) :
    ∃ t, m.insert k v k = some t := by
  unfold umap.insert
  cases hk : m k with
  | some u => exact ⟨u, hk⟩
  | none => exact ⟨v, by simp [umap.assign]⟩

/-- Insertions keep a key that holds a table holding one. -/
theorem foldl_insert_keeps_has (l : List (cell × tag_operations)) :
    ∀ (m : op_map_t) (k : cell), (∃ t, m k = some t) →
      ∃ t, l.foldl (fun m kv => m.insert kv.1 kv.2) m k = some t := by
  induction l with
  | nil => intro m k h; exact h
  | cons kv l ih =>
    intro m k h
    obtain ⟨t, ht⟩ := h
    exact ih (m.insert kv.1 kv.2) k ⟨t, umap.insert_keeps m kv.1 k kv.2 t ht⟩

/-- After the insertions every inserted key holds a table. -/
theorem foldl_insert_has (l : List (cell × tag_operations)) :
    ∀ (m : op_map_t) (kv : cell × tag_operations), kv ∈ l →
      ∃ t, l.foldl (fun m kv => m.insert kv.1 kv.2) m kv.1 = some t := by
  induction l with
  | nil => intro m kv h; exact absurd h (List.not_mem_nil kv)
  | cons kv0 l ih =>
    intro m kv h
    rcases List.mem_cons.mp h with e | e
    · subst e
      exact foldl_insert_keeps_has l (m.insert kv.1 kv.2) kv.1 (umap.insert_has m kv.1 kv.2)
    · exact ih (m.insert kv0.1 kv0.2) kv e

/-- Insertions of tables that are not dynamic under keys of a set keep a map in which all
tables are not dynamic and under keys of the set. -/
theorem foldl_insert_builtin (S : List cell) (l : List (cell × tag_operations))
    (hl : ∀ kv ∈ l, kv.1 ∈ S ∧ kv.2.is_dynamic = false) :
    ∀ (m : op_map_t), (∀ k t, m k = some t → k ∈ S ∧ t.is_dynamic = false) →
      ∀ k t, l.foldl (fun m kv => m.insert kv.1 kv.2) m k = some t →
        k ∈ S ∧ t.is_dynamic = false := by
  induction l with
  | nil => intro m hm k t h; exact hm k t h
  | cons kv l ih =>
    intro m hm
    apply ih (fun kv2 h2 => hl kv2 (List.mem_cons_of_mem kv h2))
    intro k t h
    cases hk : m kv.1 with
    | some u =>
      simp only [umap.insert, hk] at h
      exact hm k t h
    | none =>
      simp only [umap.insert, hk, umap.assign] at h
      by_cases e : k = kv.1
      · simp only [e, if_true, Option.some.injEq] at h
        rw [e, ← h]
        exact hl kv (List.mem_cons_self kv l)
      · simp only [e, if_false] at h
        exact hm k t h

/-- The initial `op_map` has the shape of `op_map_shape`. -/
theorem op_map_shape_init (ids : tags) : op_map_shape ids (op_map ids) := by
  have hl : ∀ kv ∈ builtin_tables ids, kv.1 ∈ ids.well_known ∧ kv.2.is_dynamic = false := by
    intro kv h
    simp only [builtin_tables, List.mem_cons, List.mem_singleton, List.not_mem_nil,
      or_false] at h
    rcases h with h | h | h | h | h | h | h | h | h | h | h | h <;>
      (subst h; exact ⟨by simp [tags.well_known], rfl⟩)
  have hb := foldl_insert_builtin ids.well_known (builtin_tables ids) hl umap.empty
    (fun k t h => by simp [umap.empty] at h)
  rw [← op_map_eq_foldl] at hb
  constructor
  · intro k hk
    have hwk : ids.well_known = (builtin_tables ids).map Prod.fst := rfl
    rw [hwk] at hk
    obtain ⟨kv, hkv, rfl⟩ := List.mem_map.mp hk
    obtain ⟨t, ht⟩ := foldl_insert_has (builtin_tables ids) umap.empty kv hkv
    rw [← op_map_eq_foldl] at ht
    exact ⟨t, ht, (hb kv.1 t ht).2⟩
  · intro k t hk h
    exact absurd (hb k t h).1 hk

/-- One `get_control` call keeps the shape of `op_map`. -/
theorem tag_info.get_control_shape (ids : tags) (m : op_map_t) (hm : op_map_shape ids m)
    (self : tag_info) : op_map_shape ids (tag_info.get_control m self).2 := by
  unfold tag_info.get_control
  cases hu : m self.uid with
  | some t => exact hm
  | none =>
    have hnot : self.uid ∉ ids.well_known := by
      intro hin
      obtain ⟨t, ht, -⟩ := hm.1 self.uid hin
      rw [hu] at ht
      exact Option.noConfusion ht
    constructor
    · intro k hk
      have hne : k ≠ self.uid := fun e => hnot (e ▸ hk)
      obtain ⟨t, ht, hd⟩ := hm.1 k hk
      exact ⟨t, by simp [umap.assign, hne, ht], hd⟩
    · intro k t hk h
      simp only [umap.assign] at h
      by_cases e : k = self.uid
      · simp only [e, if_true, Option.some.injEq] at h
        rw [← h]; rfl
      · simp only [e, if_false] at h
        exact hm.2 k t hk h

/-- A sequence of dispatcher calls keeps the shape of `op_map`. -/
theorem dispatch_call.run_shape (ids : tags) (mem : tag_memory) (calls : List dispatch_call) :
    ∀ (m : op_map_t), op_map_shape ids m → op_map_shape ids (dispatch_call.run mem m calls) := by
  induction calls with
  | nil => intro m h; exact h
  | cons c cs ih =>
    intro m h
    apply ih
    cases c with
    | get_ops p => exact h
    | get_control p => exact tag_info.get_control_shape ids m h (mem p)

/-- A `set_op` or `lock` made through a control object, which changes the dynamic table in
its slot in place, keeps the shape of `op_map`. -/
theorem op_map_shape_assign_dynamic (ids : tags) (m : op_map_t) (hm : op_map_shape ids m)
    (k : cell) (d d2 : dynamic_operations) (hk : m k = some (tag_operations.dynamic d)) :
    op_map_shape ids (m.assign k (tag_operations.dynamic d2)) := by
  have hnot : k ∉ ids.well_known := by
    intro hin
    obtain ⟨t, ht, hd⟩ := hm.1 k hin
    rw [hk] at ht
    simp only [Option.some.injEq] at ht
    rw [← ht] at hd
    exact Bool.noConfusion hd
  constructor
  · intro k2 hk2
    have hne : k2 ≠ k := fun e => hnot (e ▸ hk2)
    obtain ⟨t, ht, hd⟩ := hm.1 k2 hk2
    exact ⟨t, by simp [umap.assign, hne, ht], hd⟩
  · intro k2 t hk2 h
    simp only [umap.assign] at h
    by_cases e : k2 = k
    · simp only [e, if_true, Option.some.injEq] at h
      rw [← h]; rfl
    · simp only [e, if_false] at h
      exact hm.2 k2 t hk2 h

/-- C22: in an `op_map` of the shape every run keeps (the well-known ids hold the built-in
tables, every other registered id a dynamic table).  For a tag with one of the twelve
well-known ids, `get_control` returns no control object and leaves `op_map` unchanged.  For
a tag with any other id it returns the control object of the slot of that id: when a
dynamic table is registered there, `op_map` is unchanged, and when none is, the empty
unlocked table is registered; a second `get_control` call on the same tag returns the same
slot and leaves `op_map`, so the entries and the lock flag of the table, unchanged.  The
shape is kept. -/
theorem get_control_create_once (ids : tags) (m : op_map_t) (hm : op_map_shape ids m)
    (tag : tag_info) :
    (tag.uid ∈ ids.well_known → tag_info.get_control m tag = (none, m)) ∧
    (tag.uid ∉ ids.well_known →
      (tag_info.get_control m tag).1 = some tag.uid ∧
      (∀ t, m tag.uid = some t →
        t.is_dynamic = true ∧ (tag_info.get_control m tag).2 = m) ∧
      (m tag.uid = none →
        (tag_info.get_control m tag).2
          = m.assign tag.uid (tag_operations.dynamic ⟨tag.uid, false, umap.empty⟩)) ∧
      (∃ d, (tag_info.get_control m tag).2 tag.uid = some (tag_operations.dynamic d)) ∧
      tag_info.get_control (tag_info.get_control m tag).2 tag
        = (some tag.uid, (tag_info.get_control m tag).2)) ∧
    op_map_shape ids (tag_info.get_control m tag).2 := by
  refine ⟨?_, ?_, tag_info.get_control_shape ids m hm tag⟩
  · intro hin
    obtain ⟨t, ht, hd⟩ := hm.1 tag.uid hin
    simp [tag_info.get_control, ht, hd]
  · intro hnot
    cases hu : m tag.uid with
    | some t =>
      have hd : t.is_dynamic = true := hm.2 tag.uid t hnot hu
      have h1 : tag_info.get_control m tag = (some tag.uid, m) := by
        simp [tag_info.get_control, hu, hd]
      refine ⟨by rw [h1], ?_, ?_, ?_, ?_⟩
      · intro t2 ht2
        simp only [Option.some.injEq] at ht2
        rw [← ht2]
        exact ⟨hd, by rw [h1]⟩
      · intro hnone
        exact Option.noConfusion hnone
      · rw [h1]
        cases t with
        | dynamic d => exact ⟨d, hu⟩
        | _ => exact Bool.noConfusion hd
      · rw [h1]
        exact h1
    | none =>
      have h1 : tag_info.get_control m tag
          = (some tag.uid,
              m.assign tag.uid (tag_operations.dynamic (dynamic_operations.new tag.uid))) := by
        simp [tag_info.get_control, hu]
      have h2 : (m.assign tag.uid (tag_operations.dynamic (dynamic_operations.new tag.uid)))
          tag.uid = some (tag_operations.dynamic (dynamic_operations.new tag.uid)) := by
        simp [umap.assign]
      refine ⟨by rw [h1], ?_, ?_, ?_, ?_⟩
      · intro t ht
        exact Option.noConfusion ht
      · intro _
        rw [h1]; rfl
      · rw [h1]
        exact ⟨_, h2⟩
      · rw [h1]
        simp [tag_info.get_control, h2, tag_operations.is_dynamic]

/-- C22 at concrete tags: the initial `op_map` has the shape; `get_control` on a tag with the
well-known id 5 returns nothing and changes nothing, and on the user tag 100 it returns
the slot 100, also when called again. -/
theorem get_control_create_once_witness :
    op_map_shape ids_example (op_map ids_example) ∧
    tag_info.get_control (op_map ids_example) ⟨5, "String", none⟩
      = (none, op_map ids_example) ∧
    (tag_info.get_control (op_map ids_example) tag_example).1 = some 100 ∧
    tag_info.get_control (tag_info.get_control (op_map ids_example) tag_example).2 tag_example
      = (some 100, (tag_info.get_control (op_map ids_example) tag_example).2) :=
  ⟨op_map_shape_init ids_example,
    (get_control_create_once ids_example (op_map ids_example) (op_map_shape_init ids_example)
      ⟨5, "String", none⟩).1 (by decide),
    ((get_control_create_once ids_example (op_map ids_example) (op_map_shape_init ids_example)
      tag_example).2.1 (by decide)).1,
    ((get_control_create_once ids_example (op_map ids_example) (op_map_shape_init ids_example)
      tag_example).2.1 (by decide)).2.2.2.2⟩

end PawnPlus
